import Mathlib

/-!
Arrange task orchestration: `libslic3r/Arrange/Tasks/ArrangeTaskImpl.hpp`.

A shallow embedding of `extract_selected`, `ArrangeTask::create`,
`prepare_fixed_unselected`, the local class `TwoStepArrangeCtl` and
`ArrangeTask::process_native`, followed by theorems about them.

Conventions of the embedding:

* `std::vector<ArrItem>` is a `List`; `emplace_back` appends at the end.
* A C++ `int` bed index is an `Int`, the `size_t` bed count is a `Nat`, and the
  arithmetic on them is the arithmetic of the integers: the definitions describe
  the runs in which no `int` or `size_t` value leaves its range. The section
  on machine integers writes the conversions between the two out and relates
  them to the unbounded arithmetic; the sum in the relay `TwoStepArrangeCtl` is
  modelled with its conversions.
* The packing engine (`Arranger<ArrItem>`) is not part of the file: it is a
  parameter, an arbitrary function that rewrites the movable items and may
  talk to the control it is handed.
* The caller's control object is a pair of functions over a caller state `σ`;
  every call that may touch the caller threads that state. Which calls of
  `arrange` a run makes is observed through a call log kept next to that state.
* The item traits (`get_bed_index`, `set_bed_index`, `is_arranged`,
  `get_bed_count`), the result container and the constant `SCALED_EPSILON` are
  declared in other files; the traits and the container are modelled from the
  specification, the constant is a parameter.
-/

namespace Slic3r
namespace arr2

/-! ## Data model -/

/-- A design object as the partitioner sees it: the two flags read by
`extract_selected` and whatever else the object carries. -/
structure Arrangeable (ω : Type) where
  obj : ω
  is_selected : Bool
  is_printable : Bool
deriving DecidableEq, Repr

/-- A packable item (`ArrItem`): the identity of the object it was made from,
its geometry and pose, and its bed index. -/
structure ArrItem (α : Type) where
  id : Nat
  geom : α
  bed_idx : Int
deriving DecidableEq, Repr

/-- The converter interface `ArrangeableToItemConverter<ArrItem>`: one method,
`convert(arrbl, offs)`. -/
structure ArrangeableToItemConverter (ω α : Type) where
  convert : Arrangeable ω → Int → ArrItem α

/-- The two item sequences of one printability class
(`ArrangeTask::ArrangeableGroup`). -/
structure ArrangeableGroup (α : Type) where
  selected : List (ArrItem α)
  unselected : List (ArrItem α)
deriving DecidableEq, Repr

/-- The task `ArrangeTask<ArrItem>`: settings, bed and the two groups. -/
structure ArrangeTask (α S B : Type) where
  settings : S
  bed : B
  printable : ArrangeableGroup α
  unprintable : ArrangeableGroup α
deriving DecidableEq, Repr

/-- A freshly constructed task (`std::make_unique<ArrangeTask<ArrItem>>()` with
the settings and the bed assigned): all four sequences are empty. -/
def ArrangeTask.fresh {α S B : Type} (settings : S) (bed : B) : ArrangeTask α S B :=
  { settings := settings, bed := bed,
    printable := { selected := [], unselected := [] },
    unprintable := { selected := [], unselected := [] } }

/-! ## `extract_selected` -/

/-- The body of the lambda handed to `for_each_arrangeable`: convert the object
(inset `0` when selected, `-SCALED_EPSILON` otherwise; the constant is the
parameter `eps`) and append the item to the container chosen by the flags. -/
def extract_visit {ω α S B : Type} (eps : Int) (itm_conv : ArrangeableToItemConverter ω α)
    (task : ArrangeTask α S B) (arrbl : Arrangeable ω) : ArrangeTask α S B :=
  let selected := arrbl.is_selected
  let printable := arrbl.is_printable
  let itm := itm_conv.convert arrbl (if selected then 0 else -eps)
  if printable then
    if selected then
      { task with printable := { task.printable with selected := task.printable.selected ++ [itm] } }
    else
      { task with printable := { task.printable with unselected := task.printable.unselected ++ [itm] } }
  else
    if selected then
      { task with unprintable := { task.unprintable with selected := task.unprintable.selected ++ [itm] } }
    else
      { task with unprintable := { task.unprintable with unselected := task.unprintable.unselected ++ [itm] } }

/-- The function `extract_selected(task, mdl, itm_conv)`: visit every object of
the model in enumeration order, then, if both `selected` sequences are empty,
swap `selected` and `unselected` inside each group. The model is the list of
its arrangeables in the order `for_each_arrangeable` visits them. -/
def extract_selected {ω α S B : Type} (eps : Int) (task : ArrangeTask α S B)
    (mdl : List (Arrangeable ω)) (itm_conv : ArrangeableToItemConverter ω α) :
    ArrangeTask α S B :=
  let task := mdl.foldl (extract_visit eps itm_conv) task
  if task.printable.selected.isEmpty && task.unprintable.selected.isEmpty then
    { task with
      printable := { selected := task.printable.unselected, unselected := task.printable.selected },
      unprintable := { selected := task.unprintable.unselected, unselected := task.unprintable.selected } }
  else
    task

/-- The scene handed to `ArrangeTask::create`: settings, bed and model. -/
structure Scene (ω S B : Type) where
  settings : S
  bed : B
  model : List (Arrangeable ω)

/-- The factory `ArrangeTask<ArrItem>::create(sc, converter)`. -/
def ArrangeTask.create {ω α S B : Type} (eps : Int) (sc : Scene ω S B)
    (converter : ArrangeableToItemConverter ω α) : ArrangeTask α S B :=
  extract_selected eps (ArrangeTask.fresh sc.settings sc.bed) sc.model converter

/-- The design with every object marked selected. -/
def select_all {ω : Type} (mdl : List (Arrangeable ω)) : List (Arrangeable ω) :=
  mdl.map (fun a => { a with is_selected := true })

/-- The inset `extract_selected` passes to the converter for an object. -/
def inset_of {ω : Type} (eps : Int) (a : Arrangeable ω) : Int :=
  if a.is_selected then 0 else -eps

/-- The objects of a design with the given pair of flags, in enumeration
order. -/
def with_flags {ω : Type} (printable selected : Bool) (mdl : List (Arrangeable ω)) :
    List (Arrangeable ω) :=
  mdl.filter (fun a => a.is_printable == printable && a.is_selected == selected)

/-- The item `extract_selected` makes from an object. -/
def conv_item {ω α : Type} (eps : Int) (itm_conv : ArrangeableToItemConverter ω α)
    (a : Arrangeable ω) : ArrItem α :=
  itm_conv.convert a (inset_of eps a)

/-! ## Item traits used by the orchestration -/

/-- Modelled from the spec: the accessor `get_bed_index` is declared outside this
file; an item carries a signed bed index and this reads it. -/
def get_bed_index {α : Type} (itm : ArrItem α) : Int := itm.bed_idx

/-- Modelled from the spec: the accessor `set_bed_index` is declared outside this
file; it overwrites the bed index and touches nothing else. -/
def set_bed_index {α : Type} (itm : ArrItem α) (idx : Int) : ArrItem α :=
  { itm with bed_idx := idx }

/-- Modelled from the spec: the predicate `is_arranged` is declared outside this
file. A bed index is a non-negative integer, a negative index means the item is
not placed. -/
def is_arranged {α : Type} (itm : ArrItem α) : Bool := decide (0 ≤ get_bed_index itm)

/-- Modelled from the spec: the helper `get_bed_count` is declared outside this
file. It is (the maximum bed index among the placed items) + 1, or 0 if no item
is placed. -/
def get_bed_count {α : Type} (items : List (ArrItem α)) : Nat :=
  ((items.filter is_arranged).map (fun itm => (get_bed_index itm).toNat + 1)).foldr max 0

/-! ## `prepare_fixed_unselected` -/

/-- The function `prepare_fixed_unselected(items, shift)`: first the loop that
lowers every bed index by `shift`, then the erase/remove_if that drops every
item that is no longer arranged (`std::remove_if` keeps the relative order of
the survivors). -/
def prepare_fixed_unselected {α : Type} (items : List (ArrItem α)) (shift : Int) :
    List (ArrItem α) :=
  let items := items.map (fun itm => set_bed_index itm (get_bed_index itm - shift))
  items.filter (fun itm => !(!is_arranged itm))

/-! ## Machine integers

The places where `process_native` mixes `int` and `size_t`, with the
conversions written out. -/

/-- The least value of a 32-bit `int`. -/
def INT_MIN : Int := -2147483648

/-- The greatest value of a 32-bit `int`. -/
def INT_MAX : Int := 2147483647

/-- Conversion of an integer value to a 32-bit two's complement `int`: the
value congruent to it modulo 2^32 that lies between `INT_MIN` and `INT_MAX`. -/
def to_int (v : Int) : Int := (v + 2147483648) % 4294967296 - 2147483648

/-- Conversion of an integer value to a 64-bit `size_t`: the value modulo
2^64. -/
def to_size_t (v : Int) : Nat := (v % 18446744073709551616).toNat

/-- The value stored by `int bedidx = get_bed_index(itm) + beds;` in the merge
loop: the `int` index is converted to `size_t`, the sum is taken modulo 2^64 and
converted back to `int`. -/
def merged_bedidx (idx : Int) (beds : Nat) : Int :=
  to_int (((to_size_t idx + beds) % 18446744073709551616 : Nat) : Int)

/-- The value stored by `set_bed_index(itm, get_bed_index(itm) - shift)` when
`prepare_fixed_unselected` is called with `beds`: the `size_t` is converted to
the `int` parameter `shift`, and the `int` difference is taken with two's
complement wrap-around. -/
def renumbered_bedidx (idx : Int) (beds : Nat) : Int :=
  to_int (idx - to_int (beds : Int))

/-- The value handed over by
`parent.update_status(remaining + self.unprintable.selected.size())`: the `int`
count is converted to `size_t`, the sum is taken modulo 2^64 and converted to
the `int` parameter of `update_status`. -/
def relayed_remaining (remaining : Int) (size : Nat) : Int :=
  to_int (((to_size_t remaining + size) % 18446744073709551616 : Nat) : Int)

/-! ## Control, engine and result -/

/-- The control interface `ArrangeTaskBase::Ctl` over a caller state `σ`:
`update_status(remaining)` may change the caller state, `was_canceled()` reads
it. -/
structure Ctl (σ : Type) where
  update_status : Int → σ → σ
  was_canceled : σ → Bool

/-- The packing engine `Arranger<ArrItem>`: `arrange(items, fixed, bed, ctl)`
rewrites the movable items and may call the control. -/
structure Arranger (α B σ : Type) where
  arrange : List (ArrItem α) → List (ArrItem α) → B → Ctl σ → σ → List (ArrItem α) × σ

/-- Modelled from the spec: `ArrangeTaskResult` is declared outside this file;
it is an ordered collection of items to which `add_item` and `add_items`
append. -/
structure ArrangeTaskResult (α : Type) where
  items : List (ArrItem α)
deriving DecidableEq, Repr

/-- Modelled from the spec: `add_item` appends one item to the result. -/
def ArrangeTaskResult.add_item {α : Type} (result : ArrangeTaskResult α) (itm : ArrItem α) :
    ArrangeTaskResult α :=
  { items := result.items ++ [itm] }

/-- Modelled from the spec: `add_items` appends the items of a range, one by
one, in order. -/
def ArrangeTaskResult.add_items {α : Type} (result : ArrangeTaskResult α)
    (range : List (ArrItem α)) : ArrangeTaskResult α :=
  range.foldl ArrangeTaskResult.add_item result

/-- The local class `TwoStepArrangeCtl` of `process_native`: it holds the
references `parent` and `self` and nothing else. The sum in `update_status`
is an `int` plus a `size_t` handed to an `int` parameter. -/
def TwoStepArrangeCtl {α S B σ : Type} (parent : Ctl σ) (self : ArrangeTask α S B) : Ctl σ :=
  { update_status := fun remaining s =>
      parent.update_status (relayed_remaining remaining self.unprintable.selected.length) s,
    was_canceled := fun s => parent.was_canceled s }

/-! ## `ArrangeTask::process_native` -/

/-- The closing loop of `process_native`: every arranged item gets
`get_bed_index(itm) + beds` as its bed index, and every item, arranged or not,
is added to the result. Returns the rewritten sequence and the result. -/
def merge_loop {α : Type} (beds : Nat) :
    List (ArrItem α) → ArrangeTaskResult α → List (ArrItem α) × ArrangeTaskResult α
  | [], result => ([], result)
  | itm :: rest, result =>
    let itm := if is_arranged itm then set_bed_index itm (get_bed_index itm + beds) else itm
    let result := result.add_item itm
    let tl := merge_loop beds rest result
    (itm :: tl.1, tl.2)

/-- What a run of `process_native` leaves behind: the returned result, the task
with the sequences as the run rewrote them, the local `beds`, and the caller
state after the last call to the control. -/
structure NativeRun (α S B σ : Type) where
  result : ArrangeTaskResult α
  task : ArrangeTask α S B
  beds : Nat
  ctl_state : σ

/-- The method `ArrangeTask::process_native(ctl)`. The engine factory
`Arranger<ArrItem>::create` is the parameter `create`. -/
def process_native {α S B σ : Type} (create : S → Arranger α B σ)
    (self : ArrangeTask α S B) (ctl : Ctl σ) (s : σ) : NativeRun α S B σ :=
  let result : ArrangeTaskResult α := { items := [] }
  let arranger := create self.settings
  let subctl := TwoStepArrangeCtl ctl self
  let fixed_items := self.printable.unselected ++ self.unprintable.unselected
  let pass1 := arranger.arrange self.printable.selected fixed_items self.bed subctl s
  let beds := max (get_bed_count pass1.1) (get_bed_count self.printable.unselected)
  let beds := max beds 1
  let unprintable_unselected := prepare_fixed_unselected self.unprintable.unselected (beds : Int)
  let pass2 := arranger.arrange self.unprintable.selected unprintable_unselected self.bed ctl pass1.2
  let result := result.add_items pass1.1
  let merged := merge_loop beds pass2.1 result
  { result := merged.2,
    task := { self with
      printable := { self.printable with selected := pass1.1 },
      unprintable := { selected := merged.1, unselected := unprintable_unselected } },
    beds := beds,
    ctl_state := pass2.2 }

/-! ## Call log

Instrumentation used to state which calls `process_native` makes: an engine is
wrapped so that every call of `arrange` is appended, with its arguments, to a
log carried next to the caller state. -/

/-- One call of `arrange` as the engine receives it: the movable items, the
fixed items, the bed and the control. -/
structure ArrangeCall (α B σ : Type) where
  movable : List (ArrItem α)
  fixed : List (ArrItem α)
  bed : B
  ctl : Ctl σ

/-- The caller's control over a state that also carries a log: it acts on the
caller state and leaves the log alone. -/
def Ctl.with_log {σ L : Type} (ctl : Ctl σ) : Ctl (σ × L) :=
  { update_status := fun remaining st => (ctl.update_status remaining st.1, st.2),
    was_canceled := fun st => ctl.was_canceled st.1 }

/-- The control a logging engine hands to the engine it wraps: the control it
received, read at the current log. -/
def Ctl.without_log {σ L : Type} (ctl : Ctl (σ × L)) (log : L) : Ctl σ :=
  { update_status := fun remaining s => (ctl.update_status remaining (s, log)).1,
    was_canceled := fun s => ctl.was_canceled (s, log) }

/-- An engine with a call log: it runs the wrapped engine on the same arguments
and appends the call to the log. -/
def Arranger.logged {α B σ : Type} (arranger : Arranger α B σ) :
    Arranger α B (σ × List (ArrangeCall α B σ)) :=
  { arrange := fun items fixed bed ctl st =>
      let out := arranger.arrange items fixed bed (Ctl.without_log ctl st.2) st.1
      (out.1, (out.2, st.2 ++ [{ movable := items, fixed := fixed, bed := bed,
                                  ctl := Ctl.without_log ctl st.2 }])) }

/-! ## Sample inputs -/

/-- A converter that keeps the object number as identity, records the inset it
was handed as the geometry, and leaves the item unplaced. -/
def inset_recorder : ArrangeableToItemConverter Nat Int :=
  { convert := fun arrbl offs => { id := arrbl.obj, geom := offs, bed_idx := -1 } }

/-- A design of one printable object that is not selected. -/
def lone_unselected : List (Arrangeable Nat) :=
  [{ obj := 7, is_selected := false, is_printable := true }]

/-- A design with one object of each pair of flags, preceded by a second
printable selected one. -/
def mixed_design : List (Arrangeable Nat) :=
  [{ obj := 1, is_selected := true, is_printable := true },
   { obj := 2, is_selected := false, is_printable := false },
   { obj := 3, is_selected := false, is_printable := true },
   { obj := 4, is_selected := true, is_printable := false },
   { obj := 5, is_selected := true, is_printable := true }]

/-- A caller control that logs every remaining count it receives and reports
cancellation once it has received `limit` of them. -/
def recording_ctl (limit : Nat) : Ctl (List Int) :=
  { update_status := fun remaining log => log ++ [remaining],
    was_canceled := fun log => decide (limit ≤ log.length) }

/-- The loop of a sample engine: it asks the control before every placement,
stops at the first cancellation and hands the rest back unplaced (index -1);
otherwise it puts the item on the bed named by its geometry (a negative
geometry means the item finds no room and stays unplaced) and reports how many
items remain. -/
def stepwise_arrange {σ : Type} (ctl : Ctl σ) : List (ArrItem Int) → σ → List (ArrItem Int) × σ
  | [], s => ([], s)
  | itm :: rest, s =>
    if ctl.was_canceled s then ((itm :: rest).map (fun i => set_bed_index i (-1)), s)
    else
      let tl := stepwise_arrange ctl rest (ctl.update_status rest.length s)
      (set_bed_index itm (if 0 ≤ itm.geom then itm.geom else -1) :: tl.1, tl.2)

/-- A sample engine: `stepwise_arrange`, whatever the fixed items and the bed. -/
def stepwise_engine {σ : Type} : Arranger Int Unit σ :=
  { arrange := fun items _ _ ctl s => stepwise_arrange ctl items s }

/-- A task with one printable selected item bound for bed 0 and one unprintable
unselected item that the design already has on bed 0. -/
def shared_bed_task : ArrangeTask Int Unit Unit :=
  { settings := (), bed := (),
    printable := { selected := [{ id := 1, geom := 0, bed_idx := -1 }], unselected := [] },
    unprintable := { selected := [], unselected := [{ id := 2, geom := 0, bed_idx := 0 }] } }

/-- Scenario A: two printable selected items, both bound for bed 0, and no
unprintable item. -/
def scenario_A : ArrangeTask Int Unit Unit :=
  { settings := (), bed := (),
    printable := { selected := [{ id := 1, geom := 0, bed_idx := -1 },
                                { id := 2, geom := 0, bed_idx := -1 }], unselected := [] },
    unprintable := { selected := [], unselected := [] } }

/-- A task with items in all four sequences: the printable selected items are
bound for beds 0 and 2 (one has no room, target -1), a printable obstacle sits
on bed 3, the unprintable selected items are bound for local beds 0, -1 and 1,
and unprintable obstacles sit on beds 0, 4 and 6. -/
def full_task : ArrangeTask Int Unit Unit :=
  { settings := (), bed := (),
    printable :=
      { selected := [{ id := 1, geom := 0, bed_idx := -1 }, { id := 2, geom := 2, bed_idx := 5 },
                     { id := 3, geom := -1, bed_idx := -1 }],
        unselected := [{ id := 4, geom := 0, bed_idx := 3 }] },
    unprintable :=
      { selected := [{ id := 5, geom := 0, bed_idx := -1 }, { id := 6, geom := -1, bed_idx := -1 },
                     { id := 7, geom := 1, bed_idx := 2 }],
        unselected := [{ id := 8, geom := 0, bed_idx := 0 }, { id := 9, geom := 0, bed_idx := 4 },
                       { id := 10, geom := 0, bed_idx := 6 }] } }

/-- Five obstacles on beds 0, 3, 2 and 5 and one that is unplaced. -/
def sample_obstacles : List (ArrItem Int) :=
  [{ id := 1, geom := 0, bed_idx := 0 }, { id := 2, geom := 0, bed_idx := 3 },
   { id := 3, geom := 0, bed_idx := -1 }, { id := 4, geom := 0, bed_idx := 2 },
   { id := 5, geom := 0, bed_idx := 5 }]

/-- A design in which only the printable group has a selected object: object 1
is printable and selected, object 2 is unprintable and not selected. -/
def one_group_selected : List (Arrangeable Nat) :=
  [{ obj := 1, is_selected := true, is_printable := true },
   { obj := 2, is_selected := false, is_printable := false }]

/-! ## Properties named in the theorems -/

/-- No placed item of `us` has the bed index of a placed item of `ps`. -/
def placed_beds_disjoint {α : Type} (us ps : List (ArrItem α)) : Prop :=
  ∀ u ∈ us, is_arranged u = true → ∀ p ∈ ps, is_arranged p = true →
    get_bed_index u ≠ get_bed_index p

/-- The engine hands back every movable item either unplaced (index -1) or on a
bed with index at least 0. -/
def engine_places_or_leaves {α B σ : Type} (arranger : Arranger α B σ) : Prop :=
  ∀ items fixed bed ctl s, ∀ itm ∈ (arranger.arrange items fixed bed ctl s).1,
    get_bed_index itm = -1 ∨ 0 ≤ get_bed_index itm

/-- The engine neither drops, duplicates nor reorders the movable items: the
identities it hands back are the identities it was given, in the same order. -/
def engine_keeps_items {α B σ : Type} (arranger : Arranger α B σ) : Prop :=
  ∀ items fixed bed ctl s,
    (arranger.arrange items fixed bed ctl s).1.map ArrItem.id = items.map ArrItem.id

/-! ## Helper lemmas: the enumeration -/

section Enumeration

variable {ω α S B : Type}

theorem foldl_visit_spec (eps : Int) (itm_conv : ArrangeableToItemConverter ω α)
    (mdl : List (Arrangeable ω)) (task : ArrangeTask α S B) :
    mdl.foldl (extract_visit eps itm_conv) task =
      { settings := task.settings, bed := task.bed,
        printable :=
          { selected := task.printable.selected ++
              (with_flags true true mdl).map (conv_item eps itm_conv),
            unselected := task.printable.unselected ++
              (with_flags true false mdl).map (conv_item eps itm_conv) },
        unprintable :=
          { selected := task.unprintable.selected ++
              (with_flags false true mdl).map (conv_item eps itm_conv),
            unselected := task.unprintable.unselected ++
              (with_flags false false mdl).map (conv_item eps itm_conv) } } := by
  induction mdl generalizing task with
  | nil => simp [with_flags]
  | cons a rest ih =>
    rw [List.foldl_cons, ih]
    rcases a with ⟨o, sel, pr⟩
    cases sel <;> cases pr <;>
      simp [extract_visit, with_flags, conv_item, inset_of, List.filter_cons]

theorem with_flags_perm (mdl : List (Arrangeable ω)) :
    (with_flags true true mdl ++ with_flags true false mdl ++ with_flags false true mdl ++
      with_flags false false mdl).Perm mdl := by
  classical
  induction mdl with
  | nil => simp [with_flags]
  | cons a rest ih =>
    have e : ∀ p s, with_flags p s (a :: rest) =
        if (a.is_printable == p && a.is_selected == s) then a :: with_flags p s rest
        else with_flags p s rest := by
      intro p s; simp only [with_flags, List.filter_cons]
    rw [List.perm_iff_count] at ih ⊢
    intro x
    have hx := ih x
    rw [e, e, e, e]
    cases hp : a.is_printable <;> cases hs : a.is_selected <;>
      simp [List.count_cons] at hx ⊢ <;> omega

theorem mem_with_flags {p s : Bool} {mdl : List (Arrangeable ω)} {a : Arrangeable ω} :
    a ∈ with_flags p s mdl ↔ a ∈ mdl ∧ a.is_printable = p ∧ a.is_selected = s := by
  simp [with_flags, List.mem_filter]

theorem extract_selected_of_selection (eps : Int) (itm_conv : ArrangeableToItemConverter ω α)
    (mdl : List (Arrangeable ω)) (settings : S) (bed : B)
    (h : ∃ a ∈ mdl, a.is_selected = true) :
    extract_selected eps (ArrangeTask.fresh settings bed) mdl itm_conv =
      { settings := settings, bed := bed,
        printable :=
          { selected := (with_flags true true mdl).map (conv_item eps itm_conv),
            unselected := (with_flags true false mdl).map (conv_item eps itm_conv) },
        unprintable :=
          { selected := (with_flags false true mdl).map (conv_item eps itm_conv),
            unselected := (with_flags false false mdl).map (conv_item eps itm_conv) } } := by
  obtain ⟨a, ha, hsel⟩ := h
  have hne : ¬ (with_flags true true mdl = [] ∧ with_flags false true mdl = []) := by
    rintro ⟨h1, h2⟩
    cases hp : a.is_printable
    · have : a ∈ with_flags false true mdl := mem_with_flags.2 ⟨ha, hp, hsel⟩
      rw [h2] at this; exact absurd this (List.not_mem_nil a)
    · have : a ∈ with_flags true true mdl := mem_with_flags.2 ⟨ha, hp, hsel⟩
      rw [h1] at this; exact absurd this (List.not_mem_nil a)
  unfold extract_selected
  simp only [foldl_visit_spec, ArrangeTask.fresh, List.nil_append]
  rw [if_neg]
  simpa [List.isEmpty_iff] using hne

theorem extract_selected_of_no_selection (eps : Int)
    (itm_conv : ArrangeableToItemConverter ω α)
    (mdl : List (Arrangeable ω)) (settings : S) (bed : B)
    (h : ∀ a ∈ mdl, a.is_selected = false) :
    extract_selected eps (ArrangeTask.fresh settings bed) mdl itm_conv =
      { settings := settings, bed := bed,
        printable :=
          { selected := (with_flags true false mdl).map (conv_item eps itm_conv),
            unselected := [] },
        unprintable :=
          { selected := (with_flags false false mdl).map (conv_item eps itm_conv),
            unselected := [] } } := by
  have hnone : ∀ p, with_flags p true mdl = [] := by
    intro p
    rw [List.eq_nil_iff_forall_not_mem]
    intro a ha
    have := mem_with_flags.1 ha
    rw [h a this.1] at this
    exact absurd this.2.2 (by decide)
  unfold extract_selected
  simp only [foldl_visit_spec, ArrangeTask.fresh, List.nil_append, hnone, List.map_nil]
  simp

end Enumeration

/-! ## Helper lemmas: bed counts, result and merge -/

section Orchestration

variable {α S B σ : Type}

theorem is_arranged_iff (itm : ArrItem α) : is_arranged itm = true ↔ 0 ≤ get_bed_index itm := by
  simp [is_arranged]

theorem get_bed_count_nil : get_bed_count ([] : List (ArrItem α)) = 0 := rfl

theorem get_bed_count_cons (itm : ArrItem α) (items : List (ArrItem α)) :
    get_bed_count (itm :: items) =
      if is_arranged itm then max ((get_bed_index itm).toNat + 1) (get_bed_count items)
      else get_bed_count items := by
  unfold get_bed_count
  by_cases h : is_arranged itm = true <;> simp [List.filter_cons, h]

theorem get_bed_index_lt_bed_count {items : List (ArrItem α)} {itm : ArrItem α}
    (hmem : itm ∈ items) (hplaced : is_arranged itm = true) :
    get_bed_index itm < (get_bed_count items : Int) := by
  induction items with
  | nil => exact absurd hmem (List.not_mem_nil itm)
  | cons x rest ih =>
    rw [get_bed_count_cons]
    rcases List.mem_cons.1 hmem with h | h
    · subst h
      rw [if_pos hplaced]
      have h0 := (is_arranged_iff itm).1 hplaced
      have := Int.toNat_of_nonneg h0
      omega
    · have := ih h
      split <;> omega

theorem get_bed_count_le_iff (items : List (ArrItem α)) (n : Nat) :
    get_bed_count items ≤ n ↔
      ∀ itm ∈ items, is_arranged itm = true → get_bed_index itm < (n : Int) := by
  induction items with
  | nil => simp [get_bed_count_nil]
  | cons x rest ih =>
    rw [get_bed_count_cons]
    by_cases hx : is_arranged x = true
    · rw [if_pos hx]
      have h0 := (is_arranged_iff x).1 hx
      have hnat := Int.toNat_of_nonneg h0
      constructor
      · intro h itm hmem hp
        rcases List.mem_cons.1 hmem with e | e
        · subst e; omega
        · exact (ih.1 (by omega)) itm e hp
      · intro h
        have h1 := h x (List.mem_cons_self x rest) hx
        have h2 := ih.2 (fun itm hmem hp => h itm (List.mem_cons_of_mem x hmem) hp)
        omega
    · rw [if_neg hx, ih]
      constructor
      · intro h itm hmem hp
        rcases List.mem_cons.1 hmem with e | e
        · subst e; exact absurd hp hx
        · exact h itm e hp
      · intro h itm hmem hp
        exact h itm (List.mem_cons_of_mem x hmem) hp

theorem add_items_items (result : ArrangeTaskResult α) (range : List (ArrItem α)) :
    (result.add_items range).items = result.items ++ range := by
  unfold ArrangeTaskResult.add_items
  induction range generalizing result with
  | nil => simp
  | cons x rest ih =>
    rw [List.foldl_cons, ih]
    simp [ArrangeTaskResult.add_item]

theorem merge_loop_fst (beds : Nat) (items : List (ArrItem α)) (result : ArrangeTaskResult α) :
    (merge_loop beds items result).1 =
      items.map (fun itm =>
        if is_arranged itm then set_bed_index itm (get_bed_index itm + beds) else itm) := by
  induction items generalizing result with
  | nil => rfl
  | cons x rest ih => simp [merge_loop, ih]

theorem merge_loop_snd (beds : Nat) (items : List (ArrItem α)) (result : ArrangeTaskResult α) :
    (merge_loop beds items result).2.items =
      result.items ++ items.map (fun itm =>
        if is_arranged itm then set_bed_index itm (get_bed_index itm + beds) else itm) := by
  induction items generalizing result with
  | nil => simp [merge_loop]
  | cons x rest ih => simp [merge_loop, ih, ArrangeTaskResult.add_item]

theorem process_native_result_items (create : S → Arranger α B σ) (self : ArrangeTask α S B)
    (ctl : Ctl σ) (s : σ) :
    (process_native create self ctl s).result.items =
      (process_native create self ctl s).task.printable.selected ++
        (process_native create self ctl s).task.unprintable.selected := by
  simp [process_native, merge_loop_snd, merge_loop_fst, add_items_items]

theorem merged_placed_ge (beds : Nat) (items : List (ArrItem α)) (u : ArrItem α)
    (hu : u ∈ items.map (fun itm =>
      if is_arranged itm then set_bed_index itm (get_bed_index itm + beds) else itm))
    (hplaced : is_arranged u = true) : (beds : Int) ≤ get_bed_index u := by
  obtain ⟨itm, _, rfl⟩ := List.mem_map.1 hu
  by_cases h : is_arranged itm = true
  · rw [if_pos h]
    have := (is_arranged_iff itm).1 h
    simp only [get_bed_index, set_bed_index] at this ⊢
    omega
  · rw [if_neg h] at hplaced
    exact absurd hplaced h

theorem process_native_beds (create : S → Arranger α B σ) (self : ArrangeTask α S B)
    (ctl : Ctl σ) (s : σ) :
    (process_native create self ctl s).beds =
      max 1 (max (get_bed_count (process_native create self ctl s).task.printable.selected)
        (get_bed_count self.printable.unselected)) := by
  simp only [process_native]
  omega

theorem process_native_unprintable_selected (create : S → Arranger α B σ)
    (self : ArrangeTask α S B) (ctl : Ctl σ) (s : σ) :
    ∀ u ∈ (process_native create self ctl s).task.unprintable.selected,
      is_arranged u = true → ((process_native create self ctl s).beds : Int) ≤ get_bed_index u := by
  intro u hu hplaced
  simp only [process_native, merge_loop_fst] at hu ⊢
  exact merged_placed_ge _ _ u hu hplaced

theorem map_id_merged (beds : Nat) (items : List (ArrItem α)) :
    (items.map (fun itm =>
      if is_arranged itm then set_bed_index itm (get_bed_index itm + beds) else itm)).map
        ArrItem.id = items.map ArrItem.id := by
  rw [List.map_map]
  apply List.map_congr_left
  intro itm _
  by_cases h : is_arranged itm = true <;> simp [h, set_bed_index]

theorem process_native_result_ids (create : S → Arranger α B σ)
    (h : ∀ settings, engine_keeps_items (create settings))
    (self : ArrangeTask α S B) (ctl : Ctl σ) (s : σ) :
    (process_native create self ctl s).result.items.map ArrItem.id =
      self.printable.selected.map ArrItem.id ++ self.unprintable.selected.map ArrItem.id := by
  simp only [process_native, merge_loop_snd, add_items_items, List.nil_append, List.map_append,
    map_id_merged]
  rw [h self.settings, h self.settings]

theorem create_empty_model {ω : Type} (eps : Int) (settings : S) (bed : B)
    (converter : ArrangeableToItemConverter ω α) :
    ArrangeTask.create eps { settings := settings, bed := bed, model := [] } converter =
      ArrangeTask.fresh settings bed := by
  simp [ArrangeTask.create, extract_selected, ArrangeTask.fresh]

theorem prepare_fixed_unselected_eq (items : List (ArrItem α)) (shift : Int) :
    prepare_fixed_unselected items shift =
      (items.filter (fun itm => decide (shift ≤ get_bed_index itm))).map
        (fun itm => set_bed_index itm (get_bed_index itm - shift)) := by
  unfold prepare_fixed_unselected
  induction items with
  | nil => rfl
  | cons x rest ih =>
    simp only [List.map_cons, List.filter_cons, Bool.not_not] at ih ⊢
    by_cases hx : shift ≤ get_bed_index x
    · have : is_arranged (set_bed_index x (get_bed_index x - shift)) = true := by
        simp only [is_arranged, get_bed_index, set_bed_index, decide_eq_true_eq] at hx ⊢
        omega
      simp only [this, hx, if_true, decide_True, List.map_cons, ih]
    · have : is_arranged (set_bed_index x (get_bed_index x - shift)) = false := by
        simp only [is_arranged, get_bed_index, set_bed_index, decide_eq_false_iff_not] at hx ⊢
        omega
      simp [this, hx, ih]

theorem get_bed_count_eq_zero (items : List (ArrItem α))
    (h : ∀ itm ∈ items, is_arranged itm = false) : get_bed_count items = 0 := by
  have := (get_bed_count_le_iff items 0).2 (fun itm hmem hp => by
    rw [h itm hmem] at hp; exact absurd hp (by decide))
  omega

theorem get_bed_count_attained (items : List (ArrItem α))
    (h : ∃ itm ∈ items, is_arranged itm = true) :
    ∃ m ∈ items, is_arranged m = true ∧ (get_bed_count items : Int) = get_bed_index m + 1 := by
  induction items with
  | nil => obtain ⟨itm, hmem, _⟩ := h; exact absurd hmem (List.not_mem_nil itm)
  | cons x rest ih =>
    rw [get_bed_count_cons]
    by_cases hrest : ∃ itm ∈ rest, is_arranged itm = true
    · obtain ⟨m, hm, hp, hc⟩ := ih hrest
      by_cases hx : is_arranged x = true
      · rw [if_pos hx]
        have h0 := (is_arranged_iff x).1 hx
        have hnat := Int.toNat_of_nonneg h0
        by_cases hle : (get_bed_index x).toNat + 1 ≤ get_bed_count rest
        · exact ⟨m, List.mem_cons_of_mem x hm, hp, by rw [max_eq_right hle]; exact hc⟩
        · refine ⟨x, List.mem_cons_self x rest, hx, ?_⟩
          rw [max_eq_left (by omega)]
          push_cast
          omega
      · rw [if_neg hx]
        exact ⟨m, List.mem_cons_of_mem x hm, hp, hc⟩
    · have hnone : ∀ itm ∈ rest, is_arranged itm = false := by
        intro itm hmem
        by_contra hcon
        exact hrest ⟨itm, hmem, by simpa using hcon⟩
      obtain ⟨itm, hmem, hp⟩ := h
      have hx : is_arranged x = true := by
        rcases List.mem_cons.1 hmem with e | e
        · subst e; exact hp
        · rw [hnone itm e] at hp; exact absurd hp (by decide)
      rw [if_pos hx, get_bed_count_eq_zero rest hnone]
      have h0 := (is_arranged_iff x).1 hx
      have hnat := Int.toNat_of_nonneg h0
      refine ⟨x, List.mem_cons_self x rest, hx, ?_⟩
      rw [max_eq_left (by omega)]
      push_cast
      omega

end Orchestration

/-! ## Helper lemmas: the sample engine -/

section SampleEngine

variable {σ : Type}

theorem stepwise_arrange_ids (ctl : Ctl σ) (items : List (ArrItem Int)) (s : σ) :
    (stepwise_arrange ctl items s).1.map ArrItem.id = items.map ArrItem.id := by
  induction items generalizing s with
  | nil => rfl
  | cons x rest ih =>
    unfold stepwise_arrange
    split
    · simp [set_bed_index, Function.comp_def]
    · simp [ih, set_bed_index]

theorem stepwise_arrange_beds (ctl : Ctl σ) (items : List (ArrItem Int)) (s : σ) :
    ∀ itm ∈ (stepwise_arrange ctl items s).1, get_bed_index itm = -1 ∨ 0 ≤ get_bed_index itm := by
  induction items generalizing s with
  | nil => intro itm h; exact absurd h (List.not_mem_nil itm)
  | cons x rest ih =>
    intro itm h
    unfold stepwise_arrange at h
    split at h
    · obtain ⟨i, _, rfl⟩ := List.mem_map.1 h
      exact Or.inl rfl
    · rcases List.mem_cons.1 h with e | e
      · subst e
        by_cases hx : 0 ≤ x.geom
        · right; simp [get_bed_index, set_bed_index, hx]
        · left; simp [get_bed_index, set_bed_index, hx]
      · exact ih _ itm e

theorem stepwise_engine_keeps_items :
    engine_keeps_items (stepwise_engine : Arranger Int Unit σ) := by
  intro items fixed bed ctl s
  exact stepwise_arrange_ids ctl items s

theorem stepwise_engine_places_or_leaves :
    engine_places_or_leaves (stepwise_engine : Arranger Int Unit σ) := by
  intro items fixed bed ctl s
  exact stepwise_arrange_beds ctl items s

end SampleEngine

/-! ## The partitioner -/

/-- C1, evaluated on the code: for the design of one printable object that is
not selected, and a converter that records the inset it is handed, the
select-all fallback puts into `printable.selected` the item converted with
inset `-SCALED_EPSILON` (here `-100`), while the same design with the object
selected gives the item converted with inset `0`; the two working sets differ,
although both `unselected` sequences are empty in both runs. -/
theorem C1_fallback_keeps_unselected_inset :
    (extract_selected 100 (ArrangeTask.fresh () ()) lone_unselected inset_recorder).printable.selected
        = [{ id := 7, geom := -100, bed_idx := -1 }] ∧
    (extract_selected 100 (ArrangeTask.fresh () ()) (select_all lone_unselected)
        inset_recorder).printable.selected
        = [{ id := 7, geom := 0, bed_idx := -1 }] ∧
    (extract_selected 100 (ArrangeTask.fresh () ()) lone_unselected inset_recorder).printable.selected
        ≠ (extract_selected 100 (ArrangeTask.fresh () ()) (select_all lone_unselected)
            inset_recorder).printable.selected ∧
    (extract_selected 100 (ArrangeTask.fresh () ()) lone_unselected
        inset_recorder).printable.unselected = [] ∧
    (extract_selected 100 (ArrangeTask.fresh () ()) (select_all lone_unselected)
        inset_recorder).printable.unselected = [] := by
  decide

/-- C2: for every design, converter and inset constant, whether or not the
select-all fallback fires, the four sequences left by `extract_selected` on a
fresh task hold, taken together, exactly one item per enumerated object (the
item converted from it) and nothing else, and their lengths sum to the number
of enumerated objects. -/
theorem C2_partition_is_bijection {ω α S B : Type} (eps : Int)
    (itm_conv : ArrangeableToItemConverter ω α) (mdl : List (Arrangeable ω))
    (settings : S) (bed : B) :
    ((extract_selected eps (ArrangeTask.fresh settings bed) mdl itm_conv).printable.selected ++
      (extract_selected eps (ArrangeTask.fresh settings bed) mdl itm_conv).printable.unselected ++
      (extract_selected eps (ArrangeTask.fresh settings bed) mdl itm_conv).unprintable.selected ++
      (extract_selected eps (ArrangeTask.fresh settings bed) mdl itm_conv).unprintable.unselected).Perm
        (mdl.map (conv_item eps itm_conv)) ∧
    (extract_selected eps (ArrangeTask.fresh settings bed) mdl itm_conv).printable.selected.length +
      (extract_selected eps (ArrangeTask.fresh settings bed) mdl itm_conv).printable.unselected.length +
      (extract_selected eps (ArrangeTask.fresh settings bed) mdl itm_conv).unprintable.selected.length +
      (extract_selected eps (ArrangeTask.fresh settings bed) mdl itm_conv).unprintable.unselected.length
        = mdl.length := by
  have hperm : ((extract_selected eps (ArrangeTask.fresh settings bed) mdl itm_conv).printable.selected ++
      (extract_selected eps (ArrangeTask.fresh settings bed) mdl itm_conv).printable.unselected ++
      (extract_selected eps (ArrangeTask.fresh settings bed) mdl itm_conv).unprintable.selected ++
      (extract_selected eps (ArrangeTask.fresh settings bed) mdl itm_conv).unprintable.unselected).Perm
        (mdl.map (conv_item eps itm_conv)) := by
    have base := (with_flags_perm mdl).map (conv_item eps itm_conv)
    simp only [List.map_append] at base
    unfold extract_selected
    simp only [foldl_visit_spec, ArrangeTask.fresh, List.nil_append]
    split
    · classical
      rw [List.perm_iff_count] at base ⊢
      intro x
      have hx := base x
      simp only [List.count_append] at hx ⊢
      omega
    · exact base
  refine ⟨hperm, ?_⟩
  have := hperm.length_eq
  simp only [List.length_append, List.length_map] at this
  omega

/-- C3: for every design in which at least one object is selected, each of the
four sequences left by `extract_selected` on a fresh task is the enumeration
filtered to the objects with that pair of flags, in enumeration order, each
object converted once, with inset `0` in the two `selected` sequences and
`-SCALED_EPSILON` in the two `unselected` ones. -/
theorem C3_stable_partition {ω α S B : Type} (eps : Int)
    (itm_conv : ArrangeableToItemConverter ω α) (mdl : List (Arrangeable ω))
    (settings : S) (bed : B) (h : ∃ a ∈ mdl, a.is_selected = true) :
    (extract_selected eps (ArrangeTask.fresh settings bed) mdl itm_conv).printable.selected
        = (mdl.filter (fun a => a.is_printable && a.is_selected)).map
            (fun a => itm_conv.convert a 0) ∧
    (extract_selected eps (ArrangeTask.fresh settings bed) mdl itm_conv).printable.unselected
        = (mdl.filter (fun a => a.is_printable && !a.is_selected)).map
            (fun a => itm_conv.convert a (-eps)) ∧
    (extract_selected eps (ArrangeTask.fresh settings bed) mdl itm_conv).unprintable.selected
        = (mdl.filter (fun a => !a.is_printable && a.is_selected)).map
            (fun a => itm_conv.convert a 0) ∧
    (extract_selected eps (ArrangeTask.fresh settings bed) mdl itm_conv).unprintable.unselected
        = (mdl.filter (fun a => !a.is_printable && !a.is_selected)).map
            (fun a => itm_conv.convert a (-eps)) := by
  rw [extract_selected_of_selection eps itm_conv mdl settings bed h]
  have key : ∀ p s, (with_flags p s mdl).map (conv_item eps itm_conv) =
      (mdl.filter (fun a => a.is_printable == p && a.is_selected == s)).map
        (fun a => itm_conv.convert a (if s then 0 else -eps)) := by
    intro p s
    apply List.map_congr_left
    intro a ha
    have := (mem_with_flags.1 ha).2.2
    simp [conv_item, inset_of, this]
  refine ⟨?_, ?_, ?_, ?_⟩
  · simpa using key true true
  · simpa using key true false
  · simpa using key false true
  · simpa using key false false

/-- C3 at the design `mixed_design` with the converter `inset_recorder`. -/
theorem C3_stable_partition_witness :
    (∃ a ∈ mixed_design, a.is_selected = true) ∧
    (extract_selected 100 (ArrangeTask.fresh () ()) mixed_design inset_recorder).printable.selected
        = [{ id := 1, geom := 0, bed_idx := -1 }, { id := 5, geom := 0, bed_idx := -1 }] ∧
    (extract_selected 100 (ArrangeTask.fresh () ()) mixed_design inset_recorder).printable.unselected
        = [{ id := 3, geom := -100, bed_idx := -1 }] ∧
    (extract_selected 100 (ArrangeTask.fresh () ()) mixed_design inset_recorder).unprintable.selected
        = [{ id := 4, geom := 0, bed_idx := -1 }] ∧
    (extract_selected 100 (ArrangeTask.fresh () ()) mixed_design inset_recorder).unprintable.unselected
        = [{ id := 2, geom := -100, bed_idx := -1 }] :=
  ⟨by decide,
   C3_stable_partition 100 inset_recorder mixed_design () () (by decide)⟩


/-! ## The orchestration -/

/-- C4, refuted as stated: the sample engine hands back every item unplaced or
on a bed with index at least 0, and on `shared_bed_task` it puts the printable
selected item on bed 0, where the design already has an unprintable unselected
item, which the run does not move: a placed unprintable item and a placed
printable item share bed 0 in the final placement. -/
theorem C4_obstacle_shares_bed_with_printable :
    engine_places_or_leaves (stepwise_engine : Arranger Int Unit (List Int)) ∧
    ¬ placed_beds_disjoint
      ((process_native (fun _ => stepwise_engine) shared_bed_task
          (recording_ctl 100) []).task.unprintable.selected ++
        shared_bed_task.unprintable.unselected)
      ((process_native (fun _ => stepwise_engine) shared_bed_task
          (recording_ctl 100) []).task.printable.selected ++
        shared_bed_task.printable.unselected) := by
  refine ⟨stepwise_engine_places_or_leaves, ?_⟩
  intro h
  exact h { id := 2, geom := 0, bed_idx := 0 } (by decide) (by decide)
    { id := 1, geom := 0, bed_idx := 0 } (by decide) (by decide) (by decide)

/-- C4, amended: for every task, engine, control and caller state, the Result of
`process_native` is the printable selected items as pass 1 left them followed
by the unprintable selected items as the merge left them, and no placed
unprintable selected item of the Result has the bed index of a placed printable
item, be it a printable selected item of the Result or a printable unselected
item of the design. -/
theorem C4_selected_unprintable_apart_from_printable {α S B σ : Type}
    (create : S → Arranger α B σ) (self : ArrangeTask α S B) (ctl : Ctl σ) (s : σ) :
    (process_native create self ctl s).result.items =
      (process_native create self ctl s).task.printable.selected ++
        (process_native create self ctl s).task.unprintable.selected ∧
    placed_beds_disjoint (process_native create self ctl s).task.unprintable.selected
      ((process_native create self ctl s).task.printable.selected ++
        self.printable.unselected) := by
  refine ⟨process_native_result_items create self ctl s, ?_⟩
  intro u hu hplaced p hp hpplaced
  have hge := process_native_unprintable_selected create self ctl s u hu hplaced
  have hbeds := process_native_beds create self ctl s
  have hlt : get_bed_index p < ((process_native create self ctl s).beds : Int) := by
    rcases List.mem_append.1 hp with h | h
    · have := get_bed_index_lt_bed_count h hpplaced
      omega
    · have := get_bed_index_lt_bed_count h hpplaced
      omega
  omega

/-- C5: for every task, engine, control and caller state, with
`shift = max(1, bed_count(printable.selected after pass 1),
bed_count(printable.unselected))`, which is the `beds` of the run: every placed
unprintable selected item written to the Result has bed index at least `shift`;
no unprintable item of the Result is on bed 0; and when no printable selected
item is placed after pass 1, no item of the Result is on bed 0. -/
theorem C5_unprintable_selected_at_or_above_shift {α S B σ : Type}
    (create : S → Arranger α B σ) (self : ArrangeTask α S B) (ctl : Ctl σ) (s : σ) :
    (process_native create self ctl s).beds =
      max 1 (max (get_bed_count (process_native create self ctl s).task.printable.selected)
        (get_bed_count self.printable.unselected)) ∧
    (process_native create self ctl s).result.items =
      (process_native create self ctl s).task.printable.selected ++
        (process_native create self ctl s).task.unprintable.selected ∧
    (∀ u ∈ (process_native create self ctl s).task.unprintable.selected,
      is_arranged u = true →
        ((process_native create self ctl s).beds : Int) ≤ get_bed_index u) ∧
    (∀ u ∈ (process_native create self ctl s).task.unprintable.selected,
      get_bed_index u ≠ 0) ∧
    ((∀ p ∈ (process_native create self ctl s).task.printable.selected,
        is_arranged p = false) →
      ∀ itm ∈ (process_native create self ctl s).result.items, get_bed_index itm ≠ 0) := by
  have hbeds := process_native_beds create self ctl s
  have hge := process_native_unprintable_selected create self ctl s
  have hzero : ∀ u ∈ (process_native create self ctl s).task.unprintable.selected,
      get_bed_index u ≠ 0 := by
    intro u hu h0
    have hplaced : is_arranged u = true := (is_arranged_iff u).2 (by omega)
    have := hge u hu hplaced
    omega
  refine ⟨hbeds, process_native_result_items create self ctl s, hge, hzero, ?_⟩
  intro hnone itm hitm h0
  rw [process_native_result_items] at hitm
  rcases List.mem_append.1 hitm with h | h
  · have hplaced : is_arranged itm = true := (is_arranged_iff itm).2 (by omega)
    rw [hnone itm h] at hplaced
    exact absurd hplaced (by decide)
  · exact hzero itm h h0

/-- C5 on `full_task` with the sample engine: the shift is 4 and the unprintable
selected items of the Result are on beds 4 and 5 or unplaced. -/
theorem C5_unprintable_selected_at_or_above_shift_witness :
    (process_native (fun _ => stepwise_engine) full_task (recording_ctl 100) []).beds = 4 ∧
    ∀ u ∈ (process_native (fun _ => stepwise_engine) full_task
        (recording_ctl 100) []).task.unprintable.selected,
      is_arranged u = true → (4 : Int) ≤ get_bed_index u :=
  ⟨by decide,
   (C5_unprintable_selected_at_or_above_shift (fun _ => stepwise_engine) full_task
      (recording_ctl 100) []).2.2.1⟩

/-- C7: for every task, every control and caller state (so whether or not
cancellation is signalled), and every engine that neither drops, duplicates nor
reorders the movable items, the Result of `process_native` holds the items of
`printable.selected` followed by the items of `unprintable.selected`, each
group in its sequence order, each item once, and no other item; so if no
identity occurs twice in the two selected sequences, none occurs twice in the
Result; and for an empty design the Result is empty. -/
theorem C7_result_covers_selected {α S B σ : Type} (create : S → Arranger α B σ)
    (h : ∀ settings, engine_keeps_items (create settings))
    (self : ArrangeTask α S B) (ctl : Ctl σ) (s : σ) :
    (process_native create self ctl s).result.items.map ArrItem.id =
      self.printable.selected.map ArrItem.id ++ self.unprintable.selected.map ArrItem.id ∧
    ((self.printable.selected.map ArrItem.id ++
        self.unprintable.selected.map ArrItem.id).Nodup →
      ((process_native create self ctl s).result.items.map ArrItem.id).Nodup) ∧
    (∀ (ω : Type) (eps : Int) (settings : S) (bed : B)
        (converter : ArrangeableToItemConverter ω α),
      (process_native create
        (ArrangeTask.create eps { settings := settings, bed := bed, model := [] } converter)
        ctl s).result.items = []) := by
  refine ⟨process_native_result_ids create h self ctl s, ?_, ?_⟩
  · intro hnd
    rw [process_native_result_ids create h self ctl s]
    exact hnd
  · intro ω eps settings bed converter
    have := process_native_result_ids create h
      (ArrangeTask.create eps { settings := settings, bed := bed, model := [] } converter) ctl s
    rw [create_empty_model] at this ⊢
    simpa [ArrangeTask.fresh] using this

/-- C7 on `full_task` with the sample engine and a control that signals
cancellation after two progress reports, that is during pass 1: the Result
still lists the identities 1, 2, 3 of `printable.selected` and then 5, 6, 7 of
`unprintable.selected`. -/
theorem C7_result_covers_selected_witness :
    (∀ settings : Unit,
      engine_keeps_items ((fun _ => stepwise_engine) settings : Arranger Int Unit (List Int))) ∧
    (recording_ctl 2).was_canceled
      ((stepwise_engine : Arranger Int Unit (List Int)).arrange full_task.printable.selected
        (full_task.printable.unselected ++ full_task.unprintable.unselected) ()
        (TwoStepArrangeCtl (recording_ctl 2) full_task) []).2 = true ∧
    (process_native (fun _ => stepwise_engine) full_task (recording_ctl 2) []).result.items.map
      ArrItem.id = [1, 2, 3, 5, 6, 7] :=
  ⟨fun _ => stepwise_engine_keeps_items, by decide,
   (C7_result_covers_selected (fun _ => stepwise_engine)
      (fun _ => stepwise_engine_keeps_items) full_task (recording_ctl 2) []).1⟩

/-- C8: for every item sequence and every shift, `prepare_fixed_unselected`
leaves exactly the items whose old bed index is at least `shift`, in their
original relative order, each with bed index old index - shift, so no item with
a negative new index remains; what happens to an item depends on its own index
and the shift only, so the outcome on a concatenation is the concatenation of
the outcomes; and when the shift is not negative every item that was unplaced
is removed. -/
theorem C8_renumbering_rule {α : Type} (items : List (ArrItem α)) (shift : Int) :
    prepare_fixed_unselected items shift =
      (items.filter (fun itm => decide (shift ≤ get_bed_index itm))).map
        (fun itm => set_bed_index itm (get_bed_index itm - shift)) ∧
    (∀ itm ∈ prepare_fixed_unselected items shift, 0 ≤ get_bed_index itm) ∧
    (∀ others : List (ArrItem α),
      prepare_fixed_unselected (items ++ others) shift =
        prepare_fixed_unselected items shift ++ prepare_fixed_unselected others shift) ∧
    (0 ≤ shift →
      prepare_fixed_unselected (items.filter (fun itm => !is_arranged itm)) shift = []) := by
  refine ⟨prepare_fixed_unselected_eq items shift, ?_, ?_, ?_⟩
  · intro itm hmem
    rw [prepare_fixed_unselected_eq] at hmem
    obtain ⟨x, hx, rfl⟩ := List.mem_map.1 hmem
    have := (List.mem_filter.1 hx).2
    simp only [get_bed_index, set_bed_index, decide_eq_true_eq] at this ⊢
    omega
  · intro others
    simp only [prepare_fixed_unselected_eq, List.filter_append, List.map_append]
  · intro hshift
    rw [prepare_fixed_unselected_eq, List.filter_filter, List.map_eq_nil_iff,
      List.filter_eq_nil_iff]
    intro itm _
    simp only [is_arranged, get_bed_index, Bool.and_eq_true, decide_eq_true_eq,
      Bool.not_eq_true', decide_eq_false_iff_not, not_and, not_not]
    intro h
    omega

/-- C8 on `sample_obstacles` with shift 2: the obstacles on beds 3, 2 and 5 stay,
in that order, on beds 1, 0 and 3; the obstacle on bed 0 and the unplaced one
are removed. -/
theorem C8_renumbering_rule_witness :
    (0 : Int) ≤ 2 ∧
    prepare_fixed_unselected sample_obstacles 2 =
      [{ id := 2, geom := 0, bed_idx := 1 }, { id := 4, geom := 0, bed_idx := 0 },
       { id := 5, geom := 0, bed_idx := 3 }] ∧
    prepare_fixed_unselected (sample_obstacles.filter (fun itm => !is_arranged itm)) 2 = [] :=
  ⟨by decide,
   (C8_renumbering_rule sample_obstacles 2).1.trans (by decide),
   (C8_renumbering_rule sample_obstacles 2).2.2.2 (by decide)⟩

/-- C9: in every run the shift computed by `process_native` (its `beds`) is
`max(1, bed_count(printable.selected after pass 1), bed_count(printable.unselected))`;
bed_count is 0 when no item is placed and otherwise is the bed index of some
placed item plus 1, with no placed item on a higher bed; hence the shift is at
least 1, and it is 1 exactly when every placed item of the two printable
sequences is on bed 0 (which covers empty and fully unplaced sequences). -/
theorem C9_shift_value {α S B σ : Type}
    (create : S → Arranger α B σ) (self : ArrangeTask α S B) (ctl : Ctl σ) (s : σ) :
    (process_native create self ctl s).beds =
      max 1 (max
        (get_bed_count ((create self.settings).arrange self.printable.selected
          (self.printable.unselected ++ self.unprintable.unselected) self.bed
          (TwoStepArrangeCtl ctl self) s).1)
        (get_bed_count self.printable.unselected)) ∧
    (∀ items : List (ArrItem α),
      (∀ itm ∈ items, is_arranged itm = false) → get_bed_count items = 0) ∧
    (∀ items : List (ArrItem α),
      (∃ itm ∈ items, is_arranged itm = true) →
        ∃ m ∈ items, is_arranged m = true ∧
          (get_bed_count items : Int) = get_bed_index m + 1 ∧
          ∀ itm ∈ items, is_arranged itm = true → get_bed_index itm ≤ get_bed_index m) ∧
    1 ≤ (process_native create self ctl s).beds ∧
    ((process_native create self ctl s).beds = 1 ↔
      ∀ p ∈ ((create self.settings).arrange self.printable.selected
          (self.printable.unselected ++ self.unprintable.unselected) self.bed
          (TwoStepArrangeCtl ctl self) s).1 ++ self.printable.unselected,
        is_arranged p = true → get_bed_index p = 0) := by
  have hbeds : (process_native create self ctl s).beds =
      max 1 (max
        (get_bed_count ((create self.settings).arrange self.printable.selected
          (self.printable.unselected ++ self.unprintable.unselected) self.bed
          (TwoStepArrangeCtl ctl self) s).1)
        (get_bed_count self.printable.unselected)) := process_native_beds create self ctl s
  refine ⟨hbeds, get_bed_count_eq_zero, ?_, ?_, ?_⟩
  · intro items h
    obtain ⟨m, hm, hp, hc⟩ := get_bed_count_attained items h
    refine ⟨m, hm, hp, hc, ?_⟩
    intro itm hmem hplaced
    have := get_bed_index_lt_bed_count hmem hplaced
    omega
  · rw [hbeds]; omega
  · rw [hbeds]
    constructor
    · intro h p hp hplaced
      have h0 := (is_arranged_iff p).1 hplaced
      rcases List.mem_append.1 hp with hm | hm
      · have := get_bed_index_lt_bed_count hm hplaced
        omega
      · have := get_bed_index_lt_bed_count hm hplaced
        omega
    · intro h
      have h1 := (get_bed_count_le_iff ((create self.settings).arrange self.printable.selected
          (self.printable.unselected ++ self.unprintable.unselected) self.bed
          (TwoStepArrangeCtl ctl self) s).1 1).2 (fun itm hmem hp => by
            have := h itm (List.mem_append_left _ hmem) hp
            omega)
      have h2 := (get_bed_count_le_iff self.printable.unselected 1).2 (fun itm hmem hp => by
            have := h itm (List.mem_append_right _ hmem) hp
            omega)
      omega

/-- C9 on Scenario A: two printable selected items, both placed on bed 0, and no
unprintable item; the shift is 1 and the Result has both items on bed 0. -/
theorem C9_shift_value_witness :
    (process_native (fun _ => stepwise_engine) scenario_A (recording_ctl 100) []).beds = 1 ∧
    (process_native (fun _ => stepwise_engine) scenario_A (recording_ctl 100) []).result.items =
      [{ id := 1, geom := 0, bed_idx := 0 }, { id := 2, geom := 0, bed_idx := 0 }] :=
  ⟨(C9_shift_value (fun _ => stepwise_engine) scenario_A (recording_ctl 100) []).2.2.2.2.2
      (by decide),
   by decide⟩

/-! ## Helper lemmas: call log, controls and machine integers -/

section Log

variable {α S B σ : Type}

theorem without_log_with_log (ctl : Ctl σ) (log : List (ArrangeCall α B σ)) :
    Ctl.without_log (Ctl.with_log ctl) log = ctl := rfl

theorem without_log_relay (ctl : Ctl σ) (self : ArrangeTask α S B)
    (log : List (ArrangeCall α B σ)) :
    Ctl.without_log (TwoStepArrangeCtl (Ctl.with_log ctl) self) log =
      TwoStepArrangeCtl ctl self := rfl

theorem process_native_logged (create : S → Arranger α B σ) (self : ArrangeTask α S B)
    (ctl : Ctl σ) (s : σ) :
    process_native (fun st => (create st).logged) self (Ctl.with_log ctl) (s, []) =
      { result := (process_native create self ctl s).result,
        task := (process_native create self ctl s).task,
        beds := (process_native create self ctl s).beds,
        ctl_state := ((process_native create self ctl s).ctl_state,
          [{ movable := self.printable.selected,
             fixed := self.printable.unselected ++ self.unprintable.unselected,
             bed := self.bed,
             ctl := TwoStepArrangeCtl ctl self },
           { movable := self.unprintable.selected,
             fixed := prepare_fixed_unselected self.unprintable.unselected
               ((process_native create self ctl s).beds : Int),
             bed := self.bed,
             ctl := ctl }]) } := rfl

theorem recording_ctl_foldl (limit : Nat) (reports log : List Int) :
    reports.foldl (fun st n => (recording_ctl limit).update_status n st) log = log ++ reports := by
  induction reports generalizing log with
  | nil => simp
  | cons n rest ih =>
    rw [List.foldl_cons, ih]
    simp [recording_ctl]

theorem relayed_remaining_exact (n : Int) (size : Nat) (hlo : INT_MIN ≤ n + size)
    (hhi : n + size ≤ INT_MAX) : relayed_remaining n size = n + size := by
  unfold relayed_remaining to_int to_size_t
  unfold INT_MIN at hlo
  unfold INT_MAX at hhi
  omega

theorem relay_update_status (parent : Ctl σ) (self : ArrangeTask α S B) (n : Int) (s : σ) :
    (TwoStepArrangeCtl parent self).update_status n s =
      parent.update_status (relayed_remaining n self.unprintable.selected.length) s := rfl

theorem relay_was_canceled (parent : Ctl σ) (self : ArrangeTask α S B) :
    (TwoStepArrangeCtl parent self).was_canceled = parent.was_canceled := by
  unfold TwoStepArrangeCtl
  rfl

theorem relay_update_status_exact (parent : Ctl σ) (self : ArrangeTask α S B) (n : Int) (s : σ)
    (hlo : INT_MIN ≤ n + self.unprintable.selected.length)
    (hhi : n + self.unprintable.selected.length ≤ INT_MAX) :
    (TwoStepArrangeCtl parent self).update_status n s =
      parent.update_status (n + self.unprintable.selected.length) s := by
  rw [relay_update_status, relayed_remaining_exact n _ hlo hhi]

theorem relay_foldl (parent : Ctl σ) (self : ArrangeTask α S B) (reports : List Int) (s : σ)
    (hfit : ∀ n ∈ reports, INT_MIN ≤ n + self.unprintable.selected.length ∧
      n + self.unprintable.selected.length ≤ INT_MAX) :
    reports.foldl (fun st n => (TwoStepArrangeCtl parent self).update_status n st) s =
      (reports.map (fun n => n + (self.unprintable.selected.length : Int))).foldl
        (fun st n => parent.update_status n st) s := by
  induction reports generalizing s with
  | nil => simp only [List.foldl_nil, List.map_nil]
  | cons n rest ih =>
    simp only [List.foldl_cons, List.map_cons]
    rw [relay_update_status_exact parent self n s
      (hfit n (List.mem_cons_self n rest)).1 (hfit n (List.mem_cons_self n rest)).2]
    exact ih _ (fun k hk => hfit k (List.mem_cons_of_mem n hk))

theorem to_int_of_in_range (v : Int) (hlo : INT_MIN ≤ v) (hhi : v ≤ INT_MAX) : to_int v = v := by
  unfold to_int
  unfold INT_MIN at hlo
  unfold INT_MAX at hhi
  omega

theorem merged_bedidx_exact (beds : Nat) (i : Int) (h0 : 0 ≤ i)
    (hfit : i + beds ≤ INT_MAX) : merged_bedidx i beds = i + beds := by
  unfold merged_bedidx to_int to_size_t
  unfold INT_MAX at hfit
  omega

theorem renumbered_bedidx_exact (beds : Nat) (j : Int) (hlo : INT_MIN ≤ j - beds)
    (hhi : j - beds ≤ INT_MAX) : renumbered_bedidx j beds = j - beds := by
  unfold renumbered_bedidx to_int
  unfold INT_MIN at hlo
  unfold INT_MAX at hhi
  omega

end Log

/-! ## The fallback trigger -/

/-- C11: let `enumerated` be the task as the full enumeration leaves it, before
the fallback test. Both of its `selected` sequences are empty exactly when no
object of the design is selected; in that case `extract_selected` returns the
task with `selected` and `unselected` exchanged once inside each group, and
otherwise it returns the enumerated task unchanged. In both cases
`printable.selected` holds only items made from printable objects and
`unprintable.selected` only items made from unprintable objects. When at least
one object of either group is selected nothing is exchanged, even if the other
group has no selected object. -/
theorem C11_fallback_trigger {ω α S B : Type} (eps : Int)
    (itm_conv : ArrangeableToItemConverter ω α) (mdl : List (Arrangeable ω))
    (settings : S) (bed : B) (enumerated : ArrangeTask α S B)
    (henum : enumerated = mdl.foldl (extract_visit eps itm_conv) (ArrangeTask.fresh settings bed)) :
    ((enumerated.printable.selected = [] ∧ enumerated.unprintable.selected = []) ↔
      ∀ a ∈ mdl, a.is_selected = false) ∧
    ((enumerated.printable.selected = [] ∧ enumerated.unprintable.selected = []) →
      extract_selected eps (ArrangeTask.fresh settings bed) mdl itm_conv =
        { settings := enumerated.settings, bed := enumerated.bed,
          printable := { selected := enumerated.printable.unselected,
                         unselected := enumerated.printable.selected },
          unprintable := { selected := enumerated.unprintable.unselected,
                           unselected := enumerated.unprintable.selected } }) ∧
    (¬ (enumerated.printable.selected = [] ∧ enumerated.unprintable.selected = []) →
      extract_selected eps (ArrangeTask.fresh settings bed) mdl itm_conv = enumerated) ∧
    (∀ itm ∈ (extract_selected eps (ArrangeTask.fresh settings bed) mdl itm_conv).printable.selected,
      ∃ a ∈ mdl, a.is_printable = true ∧ itm = conv_item eps itm_conv a) ∧
    (∀ itm ∈ (extract_selected eps (ArrangeTask.fresh settings bed) mdl
        itm_conv).unprintable.selected,
      ∃ a ∈ mdl, a.is_printable = false ∧ itm = conv_item eps itm_conv a) ∧
    ((∃ a ∈ mdl, a.is_selected = true) →
      extract_selected eps (ArrangeTask.fresh settings bed) mdl itm_conv = enumerated) := by
  have hiff : (enumerated.printable.selected = [] ∧ enumerated.unprintable.selected = []) ↔
      ∀ a ∈ mdl, a.is_selected = false := by
    subst henum
    simp only [foldl_visit_spec, ArrangeTask.fresh, List.nil_append, List.map_eq_nil_iff]
    constructor
    · rintro ⟨h1, h2⟩ a ha
      cases hs : a.is_selected
      · rfl
      · cases hp : a.is_printable
        · have : a ∈ with_flags false true mdl := mem_with_flags.2 ⟨ha, hp, hs⟩
          rw [h2] at this; exact absurd this (List.not_mem_nil a)
        · have : a ∈ with_flags true true mdl := mem_with_flags.2 ⟨ha, hp, hs⟩
          rw [h1] at this; exact absurd this (List.not_mem_nil a)
    · intro h
      have hnone : ∀ p, with_flags p true mdl = [] := by
        intro p
        rw [List.eq_nil_iff_forall_not_mem]
        intro a ha
        have := mem_with_flags.1 ha
        rw [h a this.1] at this
        exact absurd this.2.2 (by decide)
      exact ⟨hnone true, hnone false⟩
  have hswap : (enumerated.printable.selected = [] ∧ enumerated.unprintable.selected = []) →
      extract_selected eps (ArrangeTask.fresh settings bed) mdl itm_conv =
        { settings := enumerated.settings, bed := enumerated.bed,
          printable := { selected := enumerated.printable.unselected,
                         unselected := enumerated.printable.selected },
          unprintable := { selected := enumerated.unprintable.unselected,
                           unselected := enumerated.unprintable.selected } } := by
    intro h
    subst henum
    unfold extract_selected
    simp only []
    rw [if_pos (by simpa [List.isEmpty_iff] using h)]
  have hkeep : ¬ (enumerated.printable.selected = [] ∧ enumerated.unprintable.selected = []) →
      extract_selected eps (ArrangeTask.fresh settings bed) mdl itm_conv = enumerated := by
    intro h
    subst henum
    unfold extract_selected
    simp only []
    rw [if_neg (by simpa [List.isEmpty_iff] using h)]
  have hgroup : ∀ p : Bool, ∀ itm,
      (itm ∈ (if p then (extract_selected eps (ArrangeTask.fresh settings bed) mdl
          itm_conv).printable.selected
        else (extract_selected eps (ArrangeTask.fresh settings bed) mdl
          itm_conv).unprintable.selected)) →
      ∃ a ∈ mdl, a.is_printable = p ∧ itm = conv_item eps itm_conv a := by
    intro p itm hitm
    have hfrom : ∀ sel, itm ∈ (with_flags p sel mdl).map (conv_item eps itm_conv) →
        ∃ a ∈ mdl, a.is_printable = p ∧ itm = conv_item eps itm_conv a := by
      intro sel hmem
      obtain ⟨a, ha, rfl⟩ := List.mem_map.1 hmem
      have := mem_with_flags.1 ha
      exact ⟨a, this.1, this.2.1, rfl⟩
    by_cases hc : enumerated.printable.selected = [] ∧ enumerated.unprintable.selected = []
    · rw [hswap hc] at hitm
      subst henum
      simp only [foldl_visit_spec, ArrangeTask.fresh, List.nil_append] at hitm
      cases p
      · exact hfrom false (by simpa using hitm)
      · exact hfrom false (by simpa using hitm)
    · rw [hkeep hc] at hitm
      subst henum
      simp only [foldl_visit_spec, ArrangeTask.fresh, List.nil_append] at hitm
      cases p
      · exact hfrom true (by simpa using hitm)
      · exact hfrom true (by simpa using hitm)
  refine ⟨hiff, hswap, hkeep, ?_, ?_, ?_⟩
  · intro itm hitm
    exact hgroup true itm (by simpa using hitm)
  · intro itm hitm
    exact hgroup false itm (by simpa using hitm)
  · rintro ⟨a, ha, hs⟩
    apply hkeep
    intro hc
    have := hiff.1 hc a ha
    rw [hs] at this
    exact absurd this (by decide)

/-- C11 on `one_group_selected`: one printable object is selected and the
unprintable group has no selected object; nothing is exchanged, so
`unprintable.selected` stays empty and the unprintable object stays in
`unprintable.unselected`. -/
theorem C11_fallback_trigger_witness :
    (∃ a ∈ one_group_selected, a.is_selected = true) ∧
    (extract_selected 100 (ArrangeTask.fresh () ()) one_group_selected inset_recorder) =
      one_group_selected.foldl (extract_visit 100 inset_recorder) (ArrangeTask.fresh () ()) ∧
    (extract_selected 100 (ArrangeTask.fresh () ()) one_group_selected
      inset_recorder).unprintable.selected = [] ∧
    (extract_selected 100 (ArrangeTask.fresh () ()) one_group_selected
      inset_recorder).unprintable.unselected = [{ id := 2, geom := -100, bed_idx := -1 }] :=
  ⟨by decide,
   (C11_fallback_trigger 100 inset_recorder one_group_selected () () _ rfl).2.2.2.2.2 (by decide),
   by decide, by decide⟩

/-! ## The two engine calls -/

/-- C12, refuted as stated: on `full_task`, whose `unprintable.selected` has
three items, with the sample engine and a caller control that reports
cancellation after two progress reports, cancellation is reported during pass 1
(the state pass 1 ends in is a cancelled one), and the second `arrange` call
still receives a movable sequence of three items: it is neither empty nor
shorter than `unprintable.selected` was when the run started. -/
theorem C12_cancelled_run_hands_over_all_items :
    (recording_ctl 2).was_canceled
      ((stepwise_engine : Arranger Int Unit (List Int)).arrange full_task.printable.selected
        (full_task.printable.unselected ++ full_task.unprintable.unselected) ()
        (TwoStepArrangeCtl (recording_ctl 2) full_task) []).2 = true ∧
    full_task.unprintable.selected.length = 3 ∧
    (process_native (fun _ => (stepwise_engine : Arranger Int Unit (List Int)).logged) full_task
        (Ctl.with_log (recording_ctl 2)) ([], [])).ctl_state.2.map
      (fun call => call.movable.length) = [3, 3] ∧
    (∃ first second,
      (process_native (fun _ => (stepwise_engine : Arranger Int Unit (List Int)).logged) full_task
          (Ctl.with_log (recording_ctl 2)) ([], [])).ctl_state.2 = [first, second] ∧
      ¬ (second.movable = [] ∨
          second.movable.length < full_task.unprintable.selected.length)) := by
  refine ⟨by decide, by decide, by decide, ?_⟩
  rw [process_native_logged]
  exact ⟨_, _, rfl, by decide⟩

/-- C12, amended: for every task, engine, control and caller state, whether or
not the control reports cancellation during pass 1, the movable sequence of the
second `arrange` call is `unprintable.selected` exactly as it was when the run
started, so it has the same number of items; the control of the second call is
the caller's control itself (that of the first call is the relay), so the
engine sees the caller's cancellation through it. The call log does not change
the run. -/
theorem C12_second_call_gets_unprintable_selected {α S B σ : Type}
    (create : S → Arranger α B σ) (self : ArrangeTask α S B) (ctl : Ctl σ) (s : σ) :
    (process_native (fun st => (create st).logged) self (Ctl.with_log ctl)
        (s, [])).ctl_state.2.map ArrangeCall.movable
      = [self.printable.selected, self.unprintable.selected] ∧
    (process_native (fun st => (create st).logged) self (Ctl.with_log ctl)
        (s, [])).ctl_state.2.map (fun call => call.movable.length)
      = [self.printable.selected.length, self.unprintable.selected.length] ∧
    (process_native (fun st => (create st).logged) self (Ctl.with_log ctl)
        (s, [])).ctl_state.2.map ArrangeCall.ctl
      = [TwoStepArrangeCtl ctl self, ctl] ∧
    (process_native (fun st => (create st).logged) self (Ctl.with_log ctl)
        (s, [])).ctl_state.2.map (fun call => call.ctl.was_canceled)
      = [ctl.was_canceled, ctl.was_canceled] ∧
    (process_native (fun st => (create st).logged) self (Ctl.with_log ctl) (s, [])).result
      = (process_native create self ctl s).result := by
  rw [process_native_logged]
  simp only [List.map_cons, List.map_nil, relay_was_canceled, and_self]

/-- C13: for every task, engine, control and caller state, every placed item of
`printable.selected` as pass 1 left it and every placed item of
`printable.unselected` has a bed index strictly below the shift (the `beds` of
the run), so every bed index local + shift with local at least 0 is above every
bed index used by placed printable content. -/
theorem C13_printable_beds_below_shift {α S B σ : Type}
    (create : S → Arranger α B σ) (self : ArrangeTask α S B) (ctl : Ctl σ) (s : σ) :
    (∀ p ∈ ((create self.settings).arrange self.printable.selected
          (self.printable.unselected ++ self.unprintable.unselected) self.bed
          (TwoStepArrangeCtl ctl self) s).1 ++ self.printable.unselected,
      is_arranged p = true →
        get_bed_index p < ((process_native create self ctl s).beds : Int)) ∧
    (∀ p ∈ ((create self.settings).arrange self.printable.selected
          (self.printable.unselected ++ self.unprintable.unselected) self.bed
          (TwoStepArrangeCtl ctl self) s).1 ++ self.printable.unselected,
      is_arranged p = true →
        ∀ local_idx : Int, 0 ≤ local_idx →
          get_bed_index p < local_idx + ((process_native create self ctl s).beds : Int)) := by
  have hbeds := process_native_beds create self ctl s
  have hlt : ∀ p ∈ ((create self.settings).arrange self.printable.selected
          (self.printable.unselected ++ self.unprintable.unselected) self.bed
          (TwoStepArrangeCtl ctl self) s).1 ++ self.printable.unselected,
      is_arranged p = true →
        get_bed_index p < ((process_native create self ctl s).beds : Int) := by
    intro p hp hplaced
    have hsel : (process_native create self ctl s).task.printable.selected =
        ((create self.settings).arrange self.printable.selected
          (self.printable.unselected ++ self.unprintable.unselected) self.bed
          (TwoStepArrangeCtl ctl self) s).1 := rfl
    rw [hsel] at hbeds
    rcases List.mem_append.1 hp with h | h
    · have := get_bed_index_lt_bed_count h hplaced
      omega
    · have := get_bed_index_lt_bed_count h hplaced
      omega
  refine ⟨hlt, ?_⟩
  intro p hp hplaced local_idx h0
  have := hlt p hp hplaced
  omega

/-- C13 on `full_task` with the sample engine: the shift is 4 and the placed
printable items are on beds 0, 2 and 3. -/
theorem C13_printable_beds_below_shift_witness :
    (process_native (fun _ => stepwise_engine) full_task (recording_ctl 100) []).beds = 4 ∧
    ∀ p ∈ ((stepwise_engine : Arranger Int Unit (List Int)).arrange full_task.printable.selected
          (full_task.printable.unselected ++ full_task.unprintable.unselected) ()
          (TwoStepArrangeCtl (recording_ctl 100) full_task) []).1 ++
        full_task.printable.unselected,
      is_arranged p = true → get_bed_index p < (4 : Int) :=
  ⟨by decide,
   (C13_printable_beds_below_shift (fun _ => stepwise_engine) full_task
      (recording_ctl 100) []).1⟩

/-- C14: for every task, engine, control and caller state, the call log of a
run of `process_native` has exactly two entries. The first is
`arrange(printable.selected, printable.unselected followed by
unprintable.unselected as the task has them, bed, relay)`; the second is
`arrange(unprintable.selected, prepare_fixed_unselected(unprintable.unselected,
shift), bed, ctl)` with the caller's control itself. The log does not change
the run, and the run leaves `printable.unselected` as it was. -/
theorem C14_engine_call_sequence {α S B σ : Type}
    (create : S → Arranger α B σ) (self : ArrangeTask α S B) (ctl : Ctl σ) (s : σ) :
    (process_native (fun st => (create st).logged) self (Ctl.with_log ctl) (s, [])).ctl_state.2
      = [{ movable := self.printable.selected,
           fixed := self.printable.unselected ++ self.unprintable.unselected,
           bed := self.bed,
           ctl := TwoStepArrangeCtl ctl self },
         { movable := self.unprintable.selected,
           fixed := prepare_fixed_unselected self.unprintable.unselected
             ((process_native create self ctl s).beds : Int),
           bed := self.bed,
           ctl := ctl }] ∧
    (process_native (fun st => (create st).logged) self (Ctl.with_log ctl) (s, [])).result
      = (process_native create self ctl s).result ∧
    (process_native (fun st => (create st).logged) self (Ctl.with_log ctl) (s, [])).task
      = (process_native create self ctl s).task ∧
    (process_native (fun st => (create st).logged) self (Ctl.with_log ctl) (s, [])).ctl_state.1
      = (process_native create self ctl s).ctl_state ∧
    (process_native create self ctl s).task.printable.unselected = self.printable.unselected := by
  rw [process_native_logged]
  exact ⟨rfl, rfl, rfl, rfl, rfl⟩

/-- C14 on `full_task` with the sample engine: the log has two calls; the
first has the three printable selected items as movable and the obstacles 4, 8,
9, 10 on their design beds 3, 0, 4, 6 as fixed, and its control adds 3 to a
report; the second has the three unprintable selected items as movable and the
obstacles 9 and 10 on beds 0 and 2 as fixed, and its control passes a report
on unchanged. -/
theorem C14_engine_call_sequence_witness :
    (process_native (fun _ => (stepwise_engine : Arranger Int Unit (List Int)).logged) full_task
        (Ctl.with_log (recording_ctl 100)) ([], [])).ctl_state.2.map
      (fun call => (call.movable.map ArrItem.id,
        call.fixed.map (fun itm => (itm.id, itm.bed_idx)),
        call.ctl.update_status 0 []))
      = [([1, 2, 3], [(4, 3), (8, 0), (9, 4), (10, 6)], [3]),
         ([5, 6, 7], [(9, 0), (10, 2)], [0])] := by
  rw [(C14_engine_call_sequence (fun _ => stepwise_engine) full_task (recording_ctl 100) []).1]
  decide

/-! ## Progress, numbering and machine arithmetic -/

/-- C15, refuted as stated: on `full_task`, whose `unprintable.selected` has
three items, a pass-1 report of 2147483647 (at least 0) reaches a logging caller
as -2147483646, because the sum of line 88 does not fit the `int` parameter;
pass 2 then reports 0, which is between 0 and 3, straight to the caller, and
the value the caller saw for pass 1 is below it. -/
theorem C15_wrapped_report_is_below_pass2_report :
    (0 : Int) ≤ 2147483647 ∧
    ((0 : Int) ≤ 0 ∧ (0 : Int) ≤ full_task.unprintable.selected.length) ∧
    (recording_ctl 100).update_status 0
      ((TwoStepArrangeCtl (recording_ctl 100) full_task).update_status 2147483647 [])
        = [-2147483646, 0] ∧
    ¬ ((0 : Int) ≤ -2147483646) := by
  refine ⟨by decide, by decide, ?_, by decide⟩
  rw [relay_update_status]
  decide

/-- C15, amended: for every caller control, task and caller state, every
remaining count `n` at least 0 reported by pass 1 for which
`n + |unprintable.selected|` is at most 2^31 - 1, and every remaining count `m`
of pass 2 that is at most `|unprintable.selected|`: the relay hands the caller
`n + |unprintable.selected|`, and that value is at least `m`, which pass 2
hands to the caller's control unchanged. So for a caller that logs what it
receives, whatever pass 1 reports (such counts) and pass 2 reports (counts
between 0 and `|unprintable.selected|`), the log is the increased pass-1 counts
followed by the pass-2 counts, and no value logged for pass 1 is below a value
logged for pass 2. -/
theorem C15_progress_does_not_increase_at_handover {α S B σ : Type}
    (parent : Ctl σ) (self : ArrangeTask α S B) (s : σ) (n m : Int)
    (hn : 0 ≤ n) (hfit : n + self.unprintable.selected.length ≤ INT_MAX)
    (hm : m ≤ self.unprintable.selected.length) :
    (TwoStepArrangeCtl parent self).update_status n s =
      parent.update_status (n + self.unprintable.selected.length) s ∧
    m ≤ n + self.unprintable.selected.length ∧
    (∀ (limit : Nat) (pass1_reports pass2_reports : List Int),
      (∀ a ∈ pass1_reports, 0 ≤ a ∧ a + self.unprintable.selected.length ≤ INT_MAX) →
      (∀ b ∈ pass2_reports, 0 ≤ b ∧ b ≤ self.unprintable.selected.length) →
      pass2_reports.foldl (fun st b => (recording_ctl limit).update_status b st)
          (pass1_reports.foldl
            (fun st a => (TwoStepArrangeCtl (recording_ctl limit) self).update_status a st) [])
        = pass1_reports.map (fun a => a + (self.unprintable.selected.length : Int)) ++
            pass2_reports ∧
      ∀ a ∈ pass1_reports.map (fun a => a + (self.unprintable.selected.length : Int)),
        ∀ b ∈ pass2_reports, b ≤ a) := by
  have hmin : ∀ a : Int, 0 ≤ a → INT_MIN ≤ a + self.unprintable.selected.length := by
    intro a ha
    unfold INT_MIN
    omega
  refine ⟨relay_update_status_exact parent self n s (hmin n hn) hfit, by omega, ?_⟩
  intro limit pass1_reports pass2_reports h1 h2
  constructor
  · rw [relay_foldl _ _ _ _ (fun a ha => ⟨hmin a (h1 a ha).1, (h1 a ha).2⟩),
      recording_ctl_foldl, recording_ctl_foldl, List.nil_append]
  · intro a ha b hb
    obtain ⟨a0, ha0, rfl⟩ := List.mem_map.1 ha
    have := (h1 a0 ha0).1
    have := (h2 b hb).2
    omega

/-- C15 on `full_task`, whose `unprintable.selected` has three items: the last
report 0 of pass 1 reaches a logging caller as 3, which is not below the
largest report 3 that pass 2 can make; the whole run with the sample engine
leaves the log 5, 4, 3, 2, 1, 0. -/
theorem C15_progress_does_not_increase_at_handover_witness :
    (0 : Int) ≤ 0 ∧ (0 : Int) + full_task.unprintable.selected.length ≤ INT_MAX ∧
    (3 : Int) ≤ full_task.unprintable.selected.length ∧
    (TwoStepArrangeCtl (recording_ctl 100) full_task).update_status 0 [] = [3] ∧
    (3 : Int) ≤ 0 + full_task.unprintable.selected.length ∧
    (process_native (fun _ => stepwise_engine) full_task (recording_ctl 100) []).ctl_state
      = [5, 4, 3, 2, 1, 0] :=
  ⟨by decide, by decide, by decide,
   (C15_progress_does_not_increase_at_handover (recording_ctl 100) full_task [] 0 3
      (by decide) (by decide) (by decide)).1.trans (by decide),
   (C15_progress_does_not_increase_at_handover (recording_ctl 100) full_task [] 0 3
      (by decide) (by decide) (by decide)).2.1,
   by decide⟩

/-- C16: for every item sequence and shift, every obstacle that
`prepare_fixed_unselected` leaves comes from an obstacle with original bed
index `g` at least the shift, has local index `g - shift`, and the merge
relabelling of an item on that local bed gives back `g`. Hence in every run of
`process_native`, an unprintable selected item that pass 2 places on the local
bed of a surviving obstacle is written to the Result with exactly that
obstacle's original bed index. -/
theorem C16_local_and_global_numbering_agree {α S B σ : Type}
    (create : S → Arranger α B σ) (self : ArrangeTask α S B) (ctl : Ctl σ) (s : σ) :
    (∀ (items : List (ArrItem α)) (shift : Nat) (result : ArrangeTaskResult α),
      ∀ o ∈ prepare_fixed_unselected items (shift : Int),
        ∃ orig ∈ items,
          o = set_bed_index orig (get_bed_index orig - shift) ∧
          (shift : Int) ≤ get_bed_index orig ∧
          get_bed_index o + shift = get_bed_index orig ∧
          ∀ u : ArrItem α, get_bed_index u = get_bed_index o →
            (merge_loop shift [u] result).1 = [set_bed_index u (get_bed_index orig)]) ∧
    (∀ o ∈ (process_native create self ctl s).task.unprintable.unselected,
      ∃ orig ∈ self.unprintable.unselected,
        o = set_bed_index orig (get_bed_index orig - (process_native create self ctl s).beds) ∧
        ((process_native create self ctl s).beds : Int) ≤ get_bed_index orig ∧
        ∀ u ∈ ((create self.settings).arrange self.unprintable.selected
            (process_native create self ctl s).task.unprintable.unselected self.bed ctl
            ((create self.settings).arrange self.printable.selected
              (self.printable.unselected ++ self.unprintable.unselected) self.bed
              (TwoStepArrangeCtl ctl self) s).2).1,
          get_bed_index u = get_bed_index o →
            set_bed_index u (get_bed_index orig) ∈
              (process_native create self ctl s).result.items) := by
  have hsurv : ∀ (items : List (ArrItem α)) (shift : Nat),
      ∀ o ∈ prepare_fixed_unselected items (shift : Int),
        ∃ orig ∈ items,
          o = set_bed_index orig (get_bed_index orig - shift) ∧
          (shift : Int) ≤ get_bed_index orig ∧
          get_bed_index o + shift = get_bed_index orig := by
    intro items shift o ho
    rw [prepare_fixed_unselected_eq] at ho
    obtain ⟨orig, horig, rfl⟩ := List.mem_map.1 ho
    have hf := List.mem_filter.1 horig
    have hge : (shift : Int) ≤ get_bed_index orig := by simpa using hf.2
    refine ⟨orig, hf.1, rfl, hge, ?_⟩
    simp only [get_bed_index, set_bed_index]
    omega
  have hrelabel : ∀ (shift : Nat) (u o orig : ArrItem α),
      get_bed_index o + shift = get_bed_index orig → (shift : Int) ≤ get_bed_index orig →
      get_bed_index u = get_bed_index o →
      (if is_arranged u = true then set_bed_index u (get_bed_index u + shift) else u) =
        set_bed_index u (get_bed_index orig) := by
    intro shift u o orig hsum hge hu
    have hplaced : is_arranged u = true := (is_arranged_iff u).2 (by omega)
    rw [if_pos hplaced]
    congr 1
    omega
  constructor
  · intro items shift result o ho
    obtain ⟨orig, horig, ho_eq, hge, hsum⟩ := hsurv items shift o ho
    refine ⟨orig, horig, ho_eq, hge, hsum, ?_⟩
    intro u hu
    rw [merge_loop_fst]
    simp only [List.map_cons, List.map_nil]
    rw [hrelabel shift u o orig hsum hge hu]
  · intro o ho
    obtain ⟨orig, horig, ho_eq, hge, hsum⟩ :=
      hsurv self.unprintable.unselected (process_native create self ctl s).beds o ho
    refine ⟨orig, horig, ho_eq, hge, ?_⟩
    intro u hu hidx
    rw [process_native_result_items]
    apply List.mem_append_right
    have hmerged : (process_native create self ctl s).task.unprintable.selected =
        (((create self.settings).arrange self.unprintable.selected
            (process_native create self ctl s).task.unprintable.unselected self.bed ctl
            ((create self.settings).arrange self.printable.selected
              (self.printable.unselected ++ self.unprintable.unselected) self.bed
              (TwoStepArrangeCtl ctl self) s).2).1).map
          (fun itm => if is_arranged itm = true then
            set_bed_index itm (get_bed_index itm + (process_native create self ctl s).beds)
            else itm) := by
      simp [process_native, merge_loop_fst]
    rw [hmerged]
    refine List.mem_map.2 ⟨u, hu, ?_⟩
    exact hrelabel _ u o orig hsum hge hidx

/-- C16 on `full_task` with the sample engine: the shift is 4, the obstacle 9
with design bed 4 survives on local bed 0, pass 2 puts item 5 on local bed 0,
and the Result has item 5 on bed 4. -/
theorem C16_local_and_global_numbering_agree_witness :
    (process_native (fun _ => stepwise_engine) full_task (recording_ctl 100) []).beds = 4 ∧
    ({ id := 5, geom := 0, bed_idx := 4 } : ArrItem Int) ∈
      (process_native (fun _ => stepwise_engine) full_task (recording_ctl 100) []).result.items ∧
    ∃ orig ∈ full_task.unprintable.unselected,
      ({ id := 9, geom := 0, bed_idx := 0 } : ArrItem Int) =
        set_bed_index orig (get_bed_index orig -
          (process_native (fun _ => stepwise_engine) full_task (recording_ctl 100) []).beds) ∧
      ((process_native (fun _ => stepwise_engine) full_task (recording_ctl 100) []).beds : Int)
        ≤ get_bed_index orig ∧
      ∀ u ∈ ((stepwise_engine : Arranger Int Unit (List Int)).arrange
          full_task.unprintable.selected
          (process_native (fun _ => stepwise_engine) full_task
            (recording_ctl 100) []).task.unprintable.unselected () (recording_ctl 100)
          ((stepwise_engine : Arranger Int Unit (List Int)).arrange full_task.printable.selected
            (full_task.printable.unselected ++ full_task.unprintable.unselected) ()
            (TwoStepArrangeCtl (recording_ctl 100) full_task) []).2).1,
        get_bed_index u = get_bed_index ({ id := 9, geom := 0, bed_idx := 0 } : ArrItem Int) →
          set_bed_index u (get_bed_index orig) ∈
            (process_native (fun _ => stepwise_engine) full_task
              (recording_ctl 100) []).result.items :=
  ⟨by decide, by decide,
   (C16_local_and_global_numbering_agree (fun _ => stepwise_engine) full_task
      (recording_ctl 100) []).2 { id := 9, geom := 0, bed_idx := 0 } (by decide)⟩

/-- C17: for every shift up to 2^31 - 1 held as a `size_t` (in particular every
shift from 1 up), converting it to the `int` parameter of
`prepare_fixed_unselected` keeps its value; for every local bed index `i` at
least 0 with `i + shift` at most 2^31 - 1 the index stored by the merge is the
sum `i + shift`; for every bed index `j` whose difference `j - shift` fits in a
32-bit `int` the renumbered index is `j - shift`. So on such values the merge
loop and `prepare_fixed_unselected` of the embedding compute what the machine
arithmetic computes. -/
theorem C17_mixed_arithmetic_exact_in_range (beds : Nat) (hbeds : (beds : Int) ≤ INT_MAX) :
    to_int (beds : Int) = beds ∧
    (∀ i : Int, 0 ≤ i → i + beds ≤ INT_MAX → merged_bedidx i beds = i + beds) ∧
    (∀ j : Int, INT_MIN ≤ j - beds → j - beds ≤ INT_MAX → renumbered_bedidx j beds = j - beds) ∧
    (∀ (α : Type) (items : List (ArrItem α)) (result : ArrangeTaskResult α),
      (∀ itm ∈ items, is_arranged itm = true → get_bed_index itm + beds ≤ INT_MAX) →
      (merge_loop beds items result).1 =
        items.map (fun itm =>
          if is_arranged itm then set_bed_index itm (merged_bedidx (get_bed_index itm) beds)
          else itm)) ∧
    (∀ (α : Type) (items : List (ArrItem α)),
      (∀ itm ∈ items,
        INT_MIN ≤ get_bed_index itm - beds ∧ get_bed_index itm - beds ≤ INT_MAX) →
      prepare_fixed_unselected items (to_int (beds : Int)) =
        (items.map (fun itm =>
          set_bed_index itm (renumbered_bedidx (get_bed_index itm) beds))).filter
            (fun itm => is_arranged itm)) := by
  have hnarrow : to_int (beds : Int) = beds :=
    to_int_of_in_range _ (by unfold INT_MIN; omega) hbeds
  refine ⟨hnarrow, fun i h0 hfit => merged_bedidx_exact beds i h0 hfit,
    fun j hlo hhi => renumbered_bedidx_exact beds j hlo hhi, ?_, ?_⟩
  · intro α items result hfit
    rw [merge_loop_fst]
    apply List.map_congr_left
    intro itm hitm
    by_cases hplaced : is_arranged itm = true
    · rw [if_pos hplaced, if_pos hplaced,
        merged_bedidx_exact beds _ ((is_arranged_iff itm).1 hplaced) (hfit itm hitm hplaced)]
    · rw [if_neg hplaced, if_neg hplaced]
  · intro α items hfit
    have hmap : items.map (fun itm =>
        set_bed_index itm (renumbered_bedidx (get_bed_index itm) beds)) =
        items.map (fun itm => set_bed_index itm (get_bed_index itm - (beds : Int))) := by
      apply List.map_congr_left
      intro itm hitm
      rw [renumbered_bedidx_exact beds _ (hfit itm hitm).1 (hfit itm hitm).2]
    rw [hnarrow, hmap]
    unfold prepare_fixed_unselected
    simp only [Bool.not_not]

/-- C17 at shift 2: the merge stores 0 + 2 = 2 for local bed 0 and the
renumbering stores 3 - 2 = 1 for bed 3; at the largest values, local bed
2^31 - 3 is stored as 2^31 - 1. -/
theorem C17_mixed_arithmetic_exact_in_range_witness :
    ((2 : Nat) : Int) ≤ INT_MAX ∧
    to_int ((2 : Nat) : Int) = 2 ∧
    merged_bedidx 0 2 = 2 ∧
    merged_bedidx 2147483645 2 = 2147483647 ∧
    renumbered_bedidx 3 2 = 1 :=
  ⟨by decide,
   (C17_mixed_arithmetic_exact_in_range 2 (by decide)).1,
   (C17_mixed_arithmetic_exact_in_range 2 (by decide)).2.1 0 (by decide) (by decide),
   (C17_mixed_arithmetic_exact_in_range 2 (by decide)).2.1 2147483645 (by decide) (by decide),
   (C17_mixed_arithmetic_exact_in_range 2 (by decide)).2.2.1 3 (by decide) (by decide)⟩

/-! ## The relay -/

/-- C10, refuted as stated: on `full_task`, whose `unprintable.selected` has
three items, a remaining count of 2147483647 reported through the relay reaches
a logging caller as -2147483646, not as 2147483647 + 3 = 2147483650: the sum of
line 88 is an `int` plus a `size_t` handed to an `int` parameter. -/
theorem C10_relay_wraps_at_int_max :
    (TwoStepArrangeCtl (recording_ctl 100) full_task).update_status 2147483647 []
      = [-2147483646] ∧
    (recording_ctl 100).update_status
      (2147483647 + (full_task.unprintable.selected.length : Int)) [] = [2147483650] ∧
    (TwoStepArrangeCtl (recording_ctl 100) full_task).update_status 2147483647 [] ≠
      (recording_ctl 100).update_status
        (2147483647 + (full_task.unprintable.selected.length : Int)) [] := by
  rw [relay_update_status]
  decide

/-- C10, amended: for every caller control, task and caller state, a remaining
count `n` reported through `TwoStepArrangeCtl.update_status` for which
`n + |unprintable.selected|` fits a 32-bit `int` reaches the caller's
`update_status` as `n + |unprintable.selected|`; for any `n` the caller
receives the `int` that differs from that sum by a multiple of 2^32;
`TwoStepArrangeCtl.was_canceled` returns the caller's `was_canceled`; the relay
keeps nothing between calls: after any series of reports whose sums fit, the
caller state is the one the caller would have reached on receiving the
increased counts directly, and the cancellation answer is the caller's at that
state. -/
theorem C10_relay_forwards {α S B σ : Type} (parent : Ctl σ) (self : ArrangeTask α S B) (s : σ) :
    (∀ n : Int, INT_MIN ≤ n + self.unprintable.selected.length →
      n + self.unprintable.selected.length ≤ INT_MAX →
      (TwoStepArrangeCtl parent self).update_status n s =
        parent.update_status (n + self.unprintable.selected.length) s) ∧
    (∀ n : Int, ∃ v : Int,
      (TwoStepArrangeCtl parent self).update_status n s = parent.update_status v s ∧
      INT_MIN ≤ v ∧ v ≤ INT_MAX ∧
      (v - (n + self.unprintable.selected.length)) % 4294967296 = 0) ∧
    (TwoStepArrangeCtl parent self).was_canceled s = parent.was_canceled s ∧
    (∀ reports : List Int,
      (∀ n ∈ reports, INT_MIN ≤ n + self.unprintable.selected.length ∧
        n + self.unprintable.selected.length ≤ INT_MAX) →
      reports.foldl (fun st n => (TwoStepArrangeCtl parent self).update_status n st) s =
        (reports.map (fun n => n + (self.unprintable.selected.length : Int))).foldl
          (fun st n => parent.update_status n st) s ∧
      (TwoStepArrangeCtl parent self).was_canceled
          (reports.foldl (fun st n => (TwoStepArrangeCtl parent self).update_status n st) s) =
        parent.was_canceled
          ((reports.map (fun n => n + (self.unprintable.selected.length : Int))).foldl
            (fun st n => parent.update_status n st) s)) := by
  refine ⟨fun n hlo hhi => relay_update_status_exact parent self n s hlo hhi, ?_,
    by rw [relay_was_canceled], ?_⟩
  · intro n
    refine ⟨relayed_remaining n self.unprintable.selected.length,
      relay_update_status parent self n s, ?_, ?_, ?_⟩
    · unfold relayed_remaining to_int to_size_t INT_MIN
      omega
    · unfold relayed_remaining to_int to_size_t INT_MAX
      omega
    · unfold relayed_remaining to_int to_size_t
      omega
  · intro reports hfit
    rw [relay_was_canceled, relay_foldl parent self reports s hfit]
    exact ⟨rfl, rfl⟩

/-- C10 on `full_task`, whose `unprintable.selected` has three items: the relay
turns the reports 2, 1, 0 of pass 1 into 5, 4, 3 for a caller that logs them,
and the whole run with the sample engine leaves the log 5, 4, 3, 2, 1, 0. -/
theorem C10_relay_forwards_witness :
    (∀ n ∈ [(2 : Int), 1, 0], INT_MIN ≤ n + full_task.unprintable.selected.length ∧
      n + full_task.unprintable.selected.length ≤ INT_MAX) ∧
    [2, 1, 0].foldl
        (fun st n => (TwoStepArrangeCtl (recording_ctl 100) full_task).update_status n st) []
      = [5, 4, 3] ∧
    (process_native (fun _ => stepwise_engine) full_task (recording_ctl 100) []).ctl_state
      = [5, 4, 3, 2, 1, 0] :=
  ⟨by decide,
   ((C10_relay_forwards (recording_ctl 100) full_task []).2.2.2 [2, 1, 0] (by decide)).1.trans
      (by decide),
   by decide⟩

end arr2
end Slic3r
